import Mathlib

/-!
Shallow embedding of the streaming statistics engine of `bin/user/rtcr.py`
(weewx-realtime_clientraw, RTCR_VERSION 0.2.1).

Conventions of the embedding:
* Python float values are modelled as rationals, timestamps as integers.
* Optional instance attributes (those created only when the history / sum
  flags are set at construction) are modelled as `Option` fields; `none`
  means "attribute absent".
* A Python method that can raise is modelled as returning
  `Option String × State`: the first component is `some exceptionName` when
  the call raises, the second is the state of the object when the call
  returns or the exception escapes (Python mutates in place, so mutations
  made before the raise survive).
* The trigonometric terms used for wind components,
  `cos (radians (90 − dir))` and `sin (radians (90 − dir))`, are passed in
  as opaque parameters `cosd sind : ℚ → ℚ`; no claim below depends on their
  values. Likewise `atan2d` stands for `degrees (atan2 y x)` in `vec_dir`.
-/

namespace RTCR

/-- MAX_AGE constant (rtcr.py line 200): history entries older than this
many seconds are trimmed. -/
def MAX_AGE : ℤ := 600

/-- ObsTuple (rtcr.py lines 2190-2201): a (value, timestamp) pair; item 0 of
the tuple is the value, item 1 is the timestamp. -/
structure ObsTuple where
  value : ℚ
  ts : ℤ
deriving DecidableEq, Repr

/-- History entry of a VectorBuffer: the stored value is the 3-tuple
(speed, cos(90°−dir), sin(90°−dir)) (rtcr.py lines 1765-1767); item 1 of the
enclosing ObsTuple is still the timestamp. -/
structure VecObsTuple where
  speed : ℚ
  xcomp : ℚ
  ycomp : ℚ
  ts : ℤ
deriving DecidableEq, Repr

/-- Python min() over the list of history timestamps, as used by
trim_history. min() raises ValueError on an empty list, but trim_history is
only called immediately after an append, so the list is never empty there
and the `[]` case below is unreachable. -/
def listMin : List ℤ → ℤ
  | [] => 0
  | a :: rest => rest.foldl min a

/-- ScalarBuffer state (rtcr.py lines 1889-1914). The history and sum
attributes exist only when the corresponding constructor flag was set;
this is modelled with `Option` fields. -/
structure ScalarBuffer where
  last : Option ℚ
  lasttime : Option ℤ
  day_min : Option ℚ
  day_mintime : Option ℤ
  day_max : Option ℚ
  day_maxtime : Option ℤ
  history : Option (List ObsTuple)
  history_full : Option Bool
  day_sum : Option ℚ
  nineam_sum : Option ℚ
  interval_sum : Option ℚ
deriving DecidableEq, Repr

/-- Day statistics used to seed a scalar buffer (the stats argument of
ScalarBuffer.__init__). -/
structure ScalarStats where
  min : Option ℚ
  mintime : Option ℤ
  max : Option ℚ
  maxtime : Option ℤ
  sum : ℚ
deriving DecidableEq, Repr

/-- ScalarBuffer.__init__ (rtcr.py lines 1894-1914). -/
def ScalarBuffer.init (stats : Option ScalarStats) (hist sum0 : Bool) :
    ScalarBuffer :=
  { last := none
    lasttime := none
    day_min := match stats with | some s => s.min | none => none
    day_mintime := match stats with | some s => s.mintime | none => none
    day_max := match stats with | some s => s.max | none => none
    day_maxtime := match stats with | some s => s.maxtime | none => none
    history := if hist then some [] else none
    history_full := if hist then some false else none
    day_sum := if sum0 then some (match stats with | some s => s.sum | none => 0) else none
    nineam_sum := if sum0 then some 0 else none
    interval_sum := if sum0 then some 0 else none }

/-- The last/lasttime update step of ScalarBuffer._add_value (rtcr.py lines
1921-1923). -/
def ScalarBuffer.updLast (b : ScalarBuffer) (v : ℚ) (ts : ℤ) : ScalarBuffer :=
  match b.lasttime with
  | none => { b with last := some v, lasttime := some ts }
  | some lt => if ts ≥ lt then { b with last := some v, lasttime := some ts } else b

/-- The day-min update of the hilo step (rtcr.py lines 1925-1927): strict
comparison; an unset min is always replaced. -/
def ScalarBuffer.updMin (b : ScalarBuffer) (v : ℚ) (ts : ℤ) : ScalarBuffer :=
  match b.day_min with
  | none => { b with day_min := some v, day_mintime := some ts }
  | some m => if v < m then { b with day_min := some v, day_mintime := some ts } else b

/-- The day-max update of the hilo step (rtcr.py lines 1928-1930): strict
comparison; an unset max is always replaced. -/
def ScalarBuffer.updMax (b : ScalarBuffer) (v : ℚ) (ts : ℤ) : ScalarBuffer :=
  match b.day_max with
  | none => { b with day_max := some v, day_maxtime := some ts }
  | some m => if v > m then { b with day_max := some v, day_maxtime := some ts } else b

/-- The hilo update step of ScalarBuffer._add_value (rtcr.py lines
1924-1930): the min block runs first, then the max block. -/
def ScalarBuffer.updHilo (b : ScalarBuffer) (v : ℚ) (ts : ℤ) : ScalarBuffer :=
  (b.updMin v ts).updMax v ts

/-- The sum update step of ScalarBuffer._add_value (rtcr.py lines
1934-1937): all three accumulators advance by the value; `+=` on an absent
attribute raises AttributeError, keeping the mutations already made. -/
def ScalarBuffer.sumStep (b : ScalarBuffer) (v : ℚ) :
    Option String × ScalarBuffer :=
  match b.day_sum with
  | none => (some "AttributeError", b)
  | some ds =>
    let b1 := { b with day_sum := some (ds + v) }
    match b1.nineam_sum with
    | none => (some "AttributeError", b1)
    | some ns =>
      let b2 := { b1 with nineam_sum := some (ns + v) }
      match b2.interval_sum with
      | none => (some "AttributeError", b2)
      | some iv => (none, { b2 with interval_sum := some (iv + v) })

/-- The history append and trim step of ScalarBuffer._add_value (rtcr.py
lines 1931-1933 and trim_history, lines 1959-1967): append the new entry,
set history_full when the oldest retained entry is at least MAX_AGE old,
and drop entries with ts ≤ ts − MAX_AGE. -/
def ScalarBuffer.histStep (b : ScalarBuffer) (h : List ObsTuple) (v : ℚ)
    (ts : ℤ) : ScalarBuffer :=
  let h2 := h ++ [ObsTuple.mk v ts]
  let oldest := ts - MAX_AGE
  { b with
    history_full := some (decide (listMin (h2.map ObsTuple.ts) ≤ oldest))
    history := some (h2.filter (fun s => s.ts > oldest)) }

/-- ScalarBuffer._add_value (rtcr.py lines 1917-1937): a null value is
ignored entirely; otherwise the last, hilo, history and sum steps run in
source order. -/
def ScalarBuffer.addValue (b : ScalarBuffer) (val : Option ℚ) (ts : ℤ)
    (hilo hist sum0 : Bool) : Option String × ScalarBuffer :=
  match val with
  | none => (none, b)
  | some v =>
    let b1 := b.updLast v ts
    let b2 := if hilo then b1.updHilo v ts else b1
    if hist then
      match b2.history with
      | none => (some "AttributeError", b2)
      | some h =>
        let b3 := b2.histStep h v ts
        if sum0 then b3.sumStep v else (none, b3)
    else
      if sum0 then b2.sumStep v else (none, b2)

/-- ScalarBuffer.day_reset (rtcr.py lines 1939-1947). The
`try: self.day_sum = 0.0 except AttributeError: pass` cannot raise: plain
attribute assignment never raises AttributeError, so day_sum is
unconditionally set to 0 (and created if it did not exist). -/
def ScalarBuffer.day_reset (b : ScalarBuffer) : ScalarBuffer :=
  { b with day_min := none, day_mintime := none, day_max := none,
           day_maxtime := none, day_sum := some 0 }

/-- ScalarBuffer.nineam_reset (rtcr.py lines 1949-1952). -/
def ScalarBuffer.nineam_reset (b : ScalarBuffer) : ScalarBuffer :=
  { b with nineam_sum := some 0 }

/-- ScalarBuffer.interval_reset (rtcr.py lines 1954-1957). -/
def ScalarBuffer.interval_reset (b : ScalarBuffer) : ScalarBuffer :=
  { b with interval_sum := some 0 }

/-- ScalarBuffer.history_max (rtcr.py lines 1969-1990). The source computes
`max(snapshot, key=itemgetter(1))`: item 1 of an ObsTuple is the TIMESTAMP,
so the maximum is taken over timestamps (Python max keeps the first element
on ties and replaces on strictly greater keys), and the returned
ObsTuple(_max[0], _max[1]) is that element. -/
def ScalarBuffer.history_max (b : ScalarBuffer) (ts age : ℤ) :
    Option String × Option ObsTuple :=
  match b.history with
  | none => (some "AttributeError", none)
  | some h =>
    let born := ts - age
    match h.filter (fun a => a.ts ≥ born) with
    | [] => (none, none)
    | a :: rest =>
      (none, some (rest.foldl (fun m x => if x.ts > m.ts then x else m) a))

/-- ScalarBuffer.history_avg (rtcr.py lines 1992-2000). The emptiness guard
tests the WHOLE history, not the filtered window, so a non-empty history
with no entry in the window reaches `float(sum(rec))/len(rec)` with
len(rec) = 0 and raises ZeroDivisionError. -/
def ScalarBuffer.history_avg (b : ScalarBuffer) (ts age : ℤ) :
    Option String × Option ℚ :=
  match b.history with
  | none => (some "AttributeError", none)
  | some h =>
    if h.length > 0 then
      let born := ts - age
      let rec0 := (h.filter (fun a => a.ts ≥ born)).map (fun a => a.value)
      if rec0.length = 0 then (some "ZeroDivisionError", none)
      else (none, some (rec0.sum / (rec0.length : ℚ)))
    else (none, none)

/-- Fold of ScalarBuffer._add_value over a list of (value, timestamp)
samples; an exception stops the sequence with the partially mutated state. -/
def ScalarBuffer.addList (b : ScalarBuffer) (l : List (ℚ × ℤ))
    (hilo hist sum0 : Bool) : Option String × ScalarBuffer :=
  match l with
  | [] => (none, b)
  | (v, t) :: rest =>
    match b.addValue (some v) t hilo hist sum0 with
    | (some e, b') => (some e, b')
    | (none, b') => b'.addList rest hilo hist sum0

/-- VectorBuffer state (rtcr.py lines 1718-1747). `last` is the
(speed, direction) pair; the direction component may itself be null. -/
structure VectorBuffer where
  last : Option (ℚ × Option ℚ)
  lasttime : Option ℤ
  day_min : Option ℚ
  day_mintime : Option ℤ
  day_max : Option ℚ
  day_maxtime : Option ℤ
  history : Option (List VecObsTuple)
  history_full : Option Bool
  day_sum : Option ℚ
  day_xsum : Option ℚ
  day_ysum : Option ℚ
  nineam_sum : Option ℚ
  interval_sum : Option ℚ
deriving DecidableEq, Repr

/-- Day statistics used to seed a vector buffer (adds the Cartesian xsum and
ysum used at rtcr.py lines 1738-1741). -/
structure VectorStats where
  min : Option ℚ
  mintime : Option ℤ
  max : Option ℚ
  maxtime : Option ℤ
  sum : ℚ
  xsum : ℚ
  ysum : ℚ
deriving DecidableEq, Repr

/-- VectorBuffer.__init__ (rtcr.py lines 1723-1747). -/
def VectorBuffer.init (stats : Option VectorStats) (hist sum0 : Bool) :
    VectorBuffer :=
  { last := none
    lasttime := none
    day_min := match stats with | some s => s.min | none => none
    day_mintime := match stats with | some s => s.mintime | none => none
    day_max := match stats with | some s => s.max | none => none
    day_maxtime := match stats with | some s => s.maxtime | none => none
    history := if hist then some [] else none
    history_full := if hist then some false else none
    day_sum := if sum0 then some (match stats with | some s => s.sum | none => 0) else none
    day_xsum := if sum0 then some (match stats with | some s => s.xsum | none => 0) else none
    day_ysum := if sum0 then some (match stats with | some s => s.ysum | none => 0) else none
    nineam_sum := if sum0 then some 0 else none
    interval_sum := if sum0 then some 0 else none }

/-- The last/lasttime update step of VectorBuffer._add_value (rtcr.py lines
1754-1756): the stored last value is the (speed, direction) pair. -/
def VectorBuffer.updLast (b : VectorBuffer) (w_speed : ℚ) (w_dir : Option ℚ)
    (ts : ℤ) : VectorBuffer :=
  match b.lasttime with
  | none => { b with last := some (w_speed, w_dir), lasttime := some ts }
  | some lt =>
    if ts ≥ lt then { b with last := some (w_speed, w_dir), lasttime := some ts } else b

/-- The day-min update of the vector hilo step (rtcr.py lines 1758-1760),
on the speed magnitude. -/
def VectorBuffer.updMin (b : VectorBuffer) (v : ℚ) (ts : ℤ) : VectorBuffer :=
  match b.day_min with
  | none => { b with day_min := some v, day_mintime := some ts }
  | some m => if v < m then { b with day_min := some v, day_mintime := some ts } else b

/-- The day-max update of the vector hilo step (rtcr.py lines 1761-1763),
on the speed magnitude. -/
def VectorBuffer.updMax (b : VectorBuffer) (v : ℚ) (ts : ℤ) : VectorBuffer :=
  match b.day_max with
  | none => { b with day_max := some v, day_maxtime := some ts }
  | some m => if v > m then { b with day_max := some v, day_maxtime := some ts } else b

/-- The hilo update step of VectorBuffer._add_value (rtcr.py lines
1757-1763), on the speed magnitude: the min block runs first, then the max
block; strict comparisons; an unset min/max is always replaced. -/
def VectorBuffer.updHilo (b : VectorBuffer) (v : ℚ) (ts : ℤ) : VectorBuffer :=
  (b.updMin v ts).updMax v ts

/-- The sum update step of VectorBuffer._add_value (rtcr.py lines
1774-1778): only day_sum accumulates (`+=`); nineam_sum and interval_sum are
not touched; day_xsum and day_ysum are OVERWRITTEN with the latest sample's
Cartesian components when the direction is non-null. -/
def VectorBuffer.sumStep (cosd sind : ℚ → ℚ) (b : VectorBuffer)
    (w_speed : ℚ) (w_dir : Option ℚ) : Option String × VectorBuffer :=
  match b.day_sum with
  | none => (some "AttributeError", b)
  | some ds =>
    let b1 := { b with day_sum := some (ds + w_speed) }
    match w_dir with
    | none => (none, b1)
    | some d =>
      (none, { b1 with day_xsum := some (w_speed * cosd d),
                       day_ysum := some (w_speed * sind d) })

/-- The history append and trim step of VectorBuffer._add_value (rtcr.py
lines 1764-1773 and trim_history, lines 1800-1808). -/
def VectorBuffer.histStep (cosd sind : ℚ → ℚ) (b : VectorBuffer)
    (h : List VecObsTuple) (w_speed d : ℚ) (ts : ℤ) : VectorBuffer :=
  let h2 := h ++ [VecObsTuple.mk w_speed (cosd d) (sind d) ts]
  let oldest := ts - MAX_AGE
  { b with
    history_full := some (decide (listMin (h2.map VecObsTuple.ts) ≤ oldest))
    history := some (h2.filter (fun s => s.ts > oldest)) }

/-- VectorBuffer._add_value (rtcr.py lines 1749-1778): a null speed is
ignored entirely; otherwise the last, hilo, history and sum steps run in
source order. In the history branch Python first resolves
`self.history.append` (AttributeError when the buffer was built without
history) and then evaluates `math.cos(math.radians(90.0 - w_dir))`, which
raises TypeError when the direction is null. -/
def VectorBuffer.addValue (cosd sind : ℚ → ℚ) (b : VectorBuffer)
    (val : Option ℚ × Option ℚ) (ts : ℤ) (hilo hist sum0 : Bool) :
    Option String × VectorBuffer :=
  match val.1 with
  | none => (none, b)
  | some w_speed =>
    let b1 := b.updLast w_speed val.2 ts
    let b2 := if hilo then b1.updHilo w_speed ts else b1
    if hist then
      match b2.history with
      | none => (some "AttributeError", b2)
      | some h =>
        match val.2 with
        | none => (some "TypeError", b2)
        | some d =>
          let b3 := VectorBuffer.histStep cosd sind b2 h w_speed d ts
          if sum0 then VectorBuffer.sumStep cosd sind b3 w_speed val.2 else (none, b3)
    else
      if sum0 then VectorBuffer.sumStep cosd sind b2 w_speed val.2 else (none, b2)

/-- VectorBuffer.day_reset (rtcr.py lines 1780-1788): clears min/max and
their timestamps, unconditionally sets day_sum to 0 (assignment cannot raise
AttributeError), and leaves day_xsum and day_ysum untouched. -/
def VectorBuffer.day_reset (b : VectorBuffer) : VectorBuffer :=
  { b with day_min := none, day_mintime := none, day_max := none,
           day_maxtime := none, day_sum := some 0 }

/-- VectorBuffer.nineam_reset (rtcr.py lines 1790-1793). -/
def VectorBuffer.nineam_reset (b : VectorBuffer) : VectorBuffer :=
  { b with nineam_sum := some 0 }

/-- VectorBuffer.interval_reset (rtcr.py lines 1795-1798). -/
def VectorBuffer.interval_reset (b : VectorBuffer) : VectorBuffer :=
  { b with interval_sum := some 0 }

/-- VectorBuffer.history_max (rtcr.py lines 1810-1831). The source computes
`max(snapshot, key=itemgetter(1)[0])`: `itemgetter(1)` is an itemgetter
OBJECT and subscripting it with `[0]` raises
TypeError: 'operator.itemgetter' object is not subscriptable, so the call
raises whenever the window is non-empty. -/
def VectorBuffer.history_max (b : VectorBuffer) (ts age : ℤ) :
    Option String × Option VecObsTuple :=
  match b.history with
  | none => (some "AttributeError", none)
  | some h =>
    let born := ts - age
    match h.filter (fun a => a.ts ≥ born) with
    | [] => (none, none)
    | _ :: _ => (some "TypeError", none)

/-- VectorBuffer.history_avg (rtcr.py lines 1833-1853): averages the speed
component (value item 0) over the window; correctly returns null when the
window is empty. -/
def VectorBuffer.history_avg (b : VectorBuffer) (ts age : ℤ) :
    Option String × Option ℚ :=
  match b.history with
  | none => (some "AttributeError", none)
  | some h =>
    let born := ts - age
    let snapshot := (h.filter (fun a => a.ts ≥ born)).map (fun a => a.speed)
    if snapshot.length > 0 then (none, some (snapshot.sum / (snapshot.length : ℚ)))
    else (none, none)

/-- VectorBuffer.vec_dir (rtcr.py lines 1874-1881), parametric in
`atan2d y x` standing for `degrees (atan2 y x)`. Reading
day_ysum/day_xsum raises AttributeError when the buffer was built without
sum tracking (Python reads day_ysum first). -/
def VectorBuffer.vec_dir (atan2d : ℚ → ℚ → ℚ) (b : VectorBuffer) :
    Option String × Option ℚ :=
  match b.day_ysum, b.day_xsum with
  | some y, some x =>
    let r := 90 - atan2d y x
    (none, some (if r < 0 then r + 360 else r))
  | _, _ => (some "AttributeError", none)

/-- Fold of VectorBuffer._add_value over (speed, direction, timestamp)
samples with a non-null speed; an exception stops the sequence with the
partially mutated state. -/
def VectorBuffer.addList (cosd sind : ℚ → ℚ) (b : VectorBuffer)
    (l : List (ℚ × Option ℚ × ℤ)) (hilo hist sum0 : Bool) :
    Option String × VectorBuffer :=
  match l with
  | [] => (none, b)
  | s :: rest =>
    match VectorBuffer.addValue cosd sind b (some s.1, s.2.1) s.2.2 hilo hist sum0 with
    | (some e, b') => (some e, b')
    | (none, b') => VectorBuffer.addList cosd sind b' rest hilo hist sum0

/-- MANIFEST (rtcr.py lines 189-191): the obs that the buffer tracks. -/
def MANIFEST : List String :=
  ["outTemp", "barometer", "outHumidity", "rain", "rainRate",
   "humidex", "windchill", "heatindex", "windSpeed", "inTemp",
   "appTemp", "dewpoint", "windDir", "wind"]

/-- HILO_MANIFEST (rtcr.py lines 193-195). -/
def HILO_MANIFEST : List String :=
  ["outTemp", "barometer", "outHumidity", "humidex", "windchill",
   "heatindex", "windSpeed", "inTemp", "appTemp", "dewpoint"]

/-- HIST_MANIFEST (rtcr.py line 197). -/
def HIST_MANIFEST : List String := ["windSpeed", "windDir"]

/-- SUM_MANIFEST (rtcr.py line 199). -/
def SUM_MANIFEST : List String := ["rain"]

/-- Association-list lookup, standing for Python dict access. -/
def lookupA {α : Type} : List (String × α) → String → Option α
  | [], _ => none
  | (k, v) :: rest, key => if k = key then some v else lookupA rest key

/-- Association-list store, standing for Python dict item assignment. -/
def setA {α : Type} : List (String × α) → String → α → List (String × α)
  | [], key, v => [(key, v)]
  | (k, w) :: rest, key, v =>
    if k = key then (k, v) :: rest else (k, w) :: setA rest key v

/-- Buffer state of class RtcrBuffer (rtcr.py lines 2008-2048): a dict from
observation name to a buffer object, plus the windrun accumulator and the
timestamp of the previous wind sample. In this program only the key "wind"
ever holds a VectorBuffer (init_dict and seed_functions, lines 2165-2167,
map only 'wind' to VectorBuffer / seed_vector), so the dict is modelled as
an association list of scalar buffers plus an optional "wind" vector
buffer. -/
structure RtcrBuffer where
  scalars : List (String × ScalarBuffer)
  wind : Option VectorBuffer
  windrun : ℚ
  last_windSpeed_ts : Option ℤ
deriving DecidableEq, Repr

/-- RtcrBuffer.__init__ (rtcr.py lines 2030-2048) called with an empty
day_stats and no additional_day_stats: the seeding loops run over nothing,
last_windSpeed_ts is None, and seed_windrun returns 0.0 because 'windSpeed'
is not in day_stats. -/
def RtcrBuffer.empty : RtcrBuffer :=
  { scalars := [], wind := none, windrun := 0, last_windSpeed_ts := none }

/-- RtcrBuffer.add_value (rtcr.py lines 2101-2109): looks the series up in
the dict, creating it lazily (with stats=None and the given history/sum
flags) on first sight, then delegates to ScalarBuffer._add_value. -/
def RtcrBuffer.add_value (b : RtcrBuffer) (obs : String) (v : Option ℚ)
    (dt : ℤ) (hilo hist sum0 : Bool) : Option String × RtcrBuffer :=
  let sb :=
    match lookupA b.scalars obs with
    | some sb => sb
    | none => ScalarBuffer.init none hist sum0
  match sb.addValue v dt hilo hist sum0 with
  | (err, sb') => (err, { b with scalars := setA b.scalars obs sb' })

/-- RtcrBuffer.add_wind_value (rtcr.py lines 2111-2128). Reproduced
faithfully, including: the windrun update divides the elapsed-seconds
product by 1000.0 (line 2120), wrapped in `try/except TypeError` so that a
missing previous timestamp (or a null windSpeed) contributes nothing while
last_windSpeed_ts is still refreshed; and the 'wind' VectorBuffer add is
invoked with the literal flags (hilo, history, sum) = (False, True, False)
(line 2128), the lazily created buffer being
VectorBuffer(stats=None, history=True) (line 2126). -/
def RtcrBuffer.add_wind_value (cosd sind : ℚ → ℚ) (b : RtcrBuffer)
    (ws wd : Option ℚ) (dt : ℤ) (hilo hist sum0 : Bool) :
    Option String × RtcrBuffer :=
  match b.add_value "windSpeed" ws dt hilo hist sum0 with
  | (some e, b1) => (some e, b1)
  | (none, b1) =>
    let b2 :=
      match ws, b1.last_windSpeed_ts with
      | some w, some lt => { b1 with windrun := b1.windrun + w * ((dt - lt : ℤ) : ℚ) / 1000 }
      | _, _ => b1
    let b3 := { b2 with last_windSpeed_ts := some dt }
    let wb :=
      match b3.wind with
      | some w => w
      | none => VectorBuffer.init none true false
    match VectorBuffer.addValue cosd sind wb (ws, wd) dt false true false with
    | (err, wb') => (err, { b3 with wind := some wb' })

/-- Fold of add_wind_value over a sequence of (windSpeed, windDir,
dateTime) samples. An exception aborts the call it occurs in but leaves the
partially mutated buffer, from which later calls continue. -/
def RtcrBuffer.addWindSeq (cosd sind : ℚ → ℚ) (b : RtcrBuffer)
    (samples : List (Option ℚ × Option ℚ × ℤ)) (hilo hist sum0 : Bool) :
    RtcrBuffer :=
  samples.foldl
    (fun c s => (RtcrBuffer.add_wind_value cosd sind c s.1 s.2.1 s.2.2 hilo hist sum0).2) b

/-- Loop body of RtcrBuffer.start_of_day_reset: a dict access `self[obs]`
for an obs that has no buffer raises KeyError, ending the loop there. -/
def dayResetGo : List String → RtcrBuffer → Option String × RtcrBuffer
  | [], b => (none, b)
  | obs :: rest, b =>
    if obs = "wind" then
      match b.wind with
      | some w => dayResetGo rest { b with wind := some w.day_reset }
      | none => (some "KeyError", b)
    else
      match lookupA b.scalars obs with
      | some sb => dayResetGo rest { b with scalars := setA b.scalars obs sb.day_reset }
      | none => (some "KeyError", b)

/-- RtcrBuffer.start_of_day_reset (rtcr.py lines 2140-2148): iterates the
FULL MANIFEST and calls `self[obs].day_reset()` for each name; the dict
access raises KeyError for any manifest obs whose series was never
created. -/
def RtcrBuffer.start_of_day_reset (b : RtcrBuffer) :
    Option String × RtcrBuffer :=
  dayResetGo MANIFEST b

/-- RtcrBuffer.nineam_reset (rtcr.py lines 2150-2158) iterates
`for obs in SUM:`, but no global named SUM is defined anywhere in the module
(only SUM_MANIFEST, line 199), so every call raises NameError before
touching any state. -/
def RtcrBuffer.nineam_reset (b : RtcrBuffer) : Option String × RtcrBuffer :=
  (some "NameError", b)

/-- Loop body of end_archive_period: `self.buffer[obs].interval_reset()`
raises KeyError when the obs has no buffer entry. -/
def intervalResetGo : List String → RtcrBuffer → Option String × RtcrBuffer
  | [], b => (none, b)
  | obs :: rest, b =>
    if obs = "wind" then
      match b.wind with
      | some w => intervalResetGo rest { b with wind := some w.interval_reset }
      | none => (some "KeyError", b)
    else
      match lookupA b.scalars obs with
      | some sb => intervalResetGo rest { b with scalars := setA b.scalars obs sb.interval_reset }
      | none => (some "KeyError", b)

/-- The interval reset broadcast, RealtimeClientrawThread.end_archive_period
(rtcr.py lines 816-820): `for obs in SUM_MANIFEST:
self.buffer[obs].interval_reset()`. RtcrBuffer itself has no interval_reset
method; this caller is the program's interval reset. -/
def RtcrBuffer.end_archive_period (b : RtcrBuffer) :
    Option String × RtcrBuffer :=
  intervalResetGo SUM_MANIFEST b

/-- Required-fields manifest CachedPacket.OBS (rtcr.py lines 2228-2231). -/
def OBS : List String :=
  ["cloudbase", "windDir", "windrun", "inHumidity", "outHumidity",
   "barometer", "radiation", "rain", "rainRate", "windSpeed",
   "appTemp", "dewpoint", "heatindex", "humidex", "inTemp",
   "outTemp", "windchill", "UV"]

/-- A weewx record / loop packet as the cache sees it: observation fields
(each possibly null), plus the usUnits and dateTime metadata entries
(`none` meaning the dict lacks the key). A present-but-null dateTime is not
modelled; weewx packets carry a non-null dateTime. -/
structure Record where
  fields : List (String × Option ℚ)
  usUnits : Option ℤ
  dateTime : Option ℤ

/-- One cache slot: the value last seen for the obs (possibly null) and the
timestamp it was seen at. -/
structure CacheEntry where
  value : Option ℚ
  ts : ℤ
deriving DecidableEq, Repr

/-- CachedPacket state (rtcr.py lines 2233-2263). -/
structure CachedPacket where
  cache : List (String × CacheEntry)
  unit_system : Option ℤ

/-- CachedPacket.__init__ (rtcr.py lines 2233-2263). `now` stands for
int(time.time() + 0.5), used only when the record has no dateTime. A field
is primed from the record only when the record has both the field and a
usUnits entry; otherwise it is primed with a null value. -/
def CachedPacket.init (rec : Record) (now : ℤ) : CachedPacket :=
  let ts := rec.dateTime.getD now
  let prime : String → CacheEntry := fun obs =>
    match rec.usUnits, lookupA rec.fields obs with
    | some _, some v => { value := v, ts := ts }
    | _, _ => { value := none, ts := ts }
  { cache := OBS.map (fun obs => (obs, prime obs))
    unit_system := rec.usUnits }

/-- Loop body of CachedPacket.update (rtcr.py lines 2278-2280): a non-null
field overwrites (or creates) its cache slot; a null field is skipped. -/
def cacheStore (ts : ℤ) (acc : CachedPacket) (f : String × Option ℚ) :
    CachedPacket :=
  match f.2 with
  | none => acc
  | some v => { acc with cache := setA acc.cache f.1 { value := some v, ts := ts } }

/-- CachedPacket.update (rtcr.py lines 2265-2280). `conv` stands for
weewx.units.to_std_system. Accessing packet['usUnits'] (done in both
branches of the unit-system reconciliation) raises KeyError before any
state is touched when the packet lacks that key. Every non-null field of
the (possibly converted) packet other than dateTime/usUnits overwrites or
creates its cache slot. -/
def CachedPacket.update (c : CachedPacket) (conv : Record → ℤ → Record)
    (packet : Record) (ts : ℤ) : Option String × CachedPacket :=
  match packet.usUnits with
  | none => (some "KeyError", c)
  | some us =>
    match c.unit_system with
    | none =>
      let c1 : CachedPacket := { c with unit_system := some us }
      (none, packet.fields.foldl (cacheStore ts) c1)
    | some u0 =>
      let pkt := if u0 ≠ us then conv packet u0 else packet
      (none, pkt.fields.foldl (cacheStore ts) c)

/-- CachedPacket.get_value (rtcr.py lines 2282-2291): the cached value if
the slot exists and is at most max_age old, otherwise None. -/
def CachedPacket.get_value (c : CachedPacket) (obs : String) (ts max_age : ℤ) :
    Option ℚ :=
  match lookupA c.cache obs with
  | some e => if ts - e.ts ≤ max_age then e.value else none
  | none => none

/-- Result of CachedPacket.get_packet: dateTime, usUnits, and one entry per
cached obs. -/
structure Packet where
  dateTime : ℤ
  usUnits : Option ℤ
  fields : List (String × Option ℚ)

/-- CachedPacket.get_packet (rtcr.py lines 2293-2304) with the ts argument
supplied: one field per cache slot, each read through get_value. -/
def CachedPacket.get_packet (c : CachedPacket) (ts max_age : ℤ) : Packet :=
  { dateTime := ts
    usUnits := c.unit_system
    fields := c.cache.map (fun p => (p.1, c.get_value p.1 ts max_age)) }

/-- Cache states reachable by construction followed by any sequence of
update calls. -/
inductive CachedPacket.Reachable : CachedPacket → Prop
  | init (rec : Record) (now : ℤ) : CachedPacket.Reachable (CachedPacket.init rec now)
  | update (c : CachedPacket) (conv : Record → ℤ → Record) (packet : Record)
      (ts : ℤ) : CachedPacket.Reachable c →
      CachedPacket.Reachable (c.update conv packet ts).2

/-- calc_trend (rtcr.py lines 2312-2336). `getRecord` stands for
db_manager.getRecord(then_ts, grace) (nearest record within the grace
tolerance, or None); the found record maps obs names to possibly-null
values. `convU` stands for the weewx unit conversion of a non-null
historical value into now's unit; conversion of a null value yields null,
which the source's `if then is not None` guard turns into a None result. -/
def calc_trend (obs : String) (now_value : Option ℚ) (convU : ℚ → ℚ)
    (getRecord : ℤ → ℤ → Option (List (String × Option ℚ)))
    (then_ts grace : ℤ) : Option ℚ :=
  match now_value with
  | none => none
  | some now =>
    match getRecord then_ts grace with
    | none => none
    | some then_record =>
      match lookupA then_record obs with
      | none => none
      | some none => none
      | some (some tv) => some (now - convU tv)

/-!
Theorems.
-/

/-- C1: evaluation of the code at a failing input. For a scalar series
whose history is [(value 5, ts 100), (value 3, ts 110)], history_max(110,
600) returns ObsTuple(3, 110) — the entry with the greatest TIMESTAMP —
although the greatest VALUE in the window is 5 (at ts 100), because
`max(snapshot, key=itemgetter(1))` keys on item 1, the timestamp; and for a
vector series any non-empty window makes history_max raise TypeError
(`itemgetter(1)[0]` subscripts the itemgetter object itself). The claim
(and the method's own docstring) ask for the maximal value together with
its timestamp. -/
theorem C1_history_max_code_eval :
    ScalarBuffer.history_max
      { last := some 3, lasttime := some 110, day_min := none,
        day_mintime := none, day_max := none, day_maxtime := none,
        history := some [⟨5, 100⟩, ⟨3, 110⟩], history_full := some false,
        day_sum := none, nineam_sum := none, interval_sum := none }
      110 600 = (none, some ⟨3, 110⟩)
    ∧ (3 : ℚ) < 5
    ∧ VectorBuffer.history_max
      { last := some (5, some 0), lasttime := some 100, day_min := none,
        day_mintime := none, day_max := none, day_maxtime := none,
        history := some [⟨5, 1, 0, 100⟩], history_full := some false,
        day_sum := none, day_xsum := none, day_ysum := none,
        nineam_sum := none, interval_sum := none }
      100 600 = (some "TypeError", none) := by
  refine ⟨by decide, by norm_num, by decide⟩

/-- C2: evaluation of the code at the failing input. Starting from a
freshly constructed empty buffer, adding the wind samples
(windSpeed = 36, ts = 0) and then (windSpeed = 36, ts = 3600) with the
manifest flags of windSpeed: the first sample contributes zero run, and the
second adds 36·3600/1000 = 129.6 — not the ≈36 km the claim (and the
module's own seed_windrun comment, which divides by 3600 to get km)
prescribe — because add_wind_value divides the elapsed seconds by 1000.0. -/
theorem C2_windrun_code_eval :
    (RtcrBuffer.add_wind_value (fun _ => 1) (fun _ => 0) RtcrBuffer.empty
      (some 36) (some 0) 0 true true false).2.windrun = 0
    ∧ (RtcrBuffer.add_wind_value (fun _ => 1) (fun _ => 0)
        (RtcrBuffer.add_wind_value (fun _ => 1) (fun _ => 0) RtcrBuffer.empty
          (some 36) (some 0) 0 true true false).2
        (some 36) (some 0) 3600 true true false).2.windrun = 648 / 5
    ∧ (648 / 5 : ℚ) ≠ 36 := by
  refine ⟨by decide, ?_, by norm_num⟩
  norm_num [RtcrBuffer.add_wind_value, RtcrBuffer.add_value, RtcrBuffer.empty,
    ScalarBuffer.init, ScalarBuffer.addValue, ScalarBuffer.updLast,
    ScalarBuffer.updHilo, ScalarBuffer.updMin, ScalarBuffer.updMax,
    ScalarBuffer.histStep, VectorBuffer.init,
    VectorBuffer.addValue, VectorBuffer.updLast, VectorBuffer.histStep,
    MAX_AGE, listMin, lookupA, setA]

/-- C3: evaluation of the code at the failing input. A scalar series whose
history holds the single entry (5, ts 100), asked for
history_avg(ts 1000, age 100) (window [900, 1000], which contains no
entry), raises ZeroDivisionError instead of returning null: the emptiness
guard tests the whole history rather than the filtered window. The vector
version of the same query correctly returns null. -/
theorem C3_history_avg_code_eval :
    ScalarBuffer.history_avg
      { last := some 5, lasttime := some 100, day_min := none,
        day_mintime := none, day_max := none, day_maxtime := none,
        history := some [⟨5, 100⟩], history_full := some false,
        day_sum := none, nineam_sum := none, interval_sum := none }
      1000 100 = (some "ZeroDivisionError", none)
    ∧ VectorBuffer.history_avg
      { last := some (5, some 0), lasttime := some 100, day_min := none,
        day_mintime := none, day_max := none, day_maxtime := none,
        history := some [⟨5, 1, 0, 100⟩], history_full := some false,
        day_sum := none, day_xsum := none, day_ysum := none,
        nineam_sum := none, interval_sum := none }
      1000 100 = (none, none) := by
  refine ⟨by decide, by decide⟩

/-- C4: evaluation of the code at a failing input. On a freshly constructed
buffer with no series present (empty day_stats), nineam_reset raises
NameError (it iterates over the undefined global SUM) — indeed it raises on
EVERY buffer state — start_of_day_reset raises KeyError at the first
manifest obs with no series, and the interval reset broadcast
(end_archive_period) raises KeyError because 'rain' has no buffer entry.
The claim says these broadcasts never raise and are no-ops for absent
series. -/
theorem C4_reset_code_eval :
    RtcrBuffer.nineam_reset RtcrBuffer.empty = (some "NameError", RtcrBuffer.empty)
    ∧ (RtcrBuffer.start_of_day_reset RtcrBuffer.empty).1 = some "KeyError"
    ∧ (RtcrBuffer.end_archive_period RtcrBuffer.empty).1 = some "KeyError" := by
  refine ⟨by decide, by decide, by decide⟩

/-- C5 counterexample: a sum-tracked VectorBuffer (built with sum=True, so
day_sum = nineam_sum = interval_sum = 0) given one addValue call with value
(speed 2, dir 0) and trackSum enabled advances day_sum to 2 but leaves
nineam_sum and interval_sum at 0 — the three accumulators do not advance
together as the claim states for every (scalar or vector) sum-tracked
series. -/
theorem C5_counterexample :
    (VectorBuffer.addValue (fun _ => 1) (fun _ => 0)
      (VectorBuffer.init none false true) (some 2, some 0) 100 false false true).2.day_sum
      = some 2
    ∧ (VectorBuffer.addValue (fun _ => 1) (fun _ => 0)
      (VectorBuffer.init none false true) (some 2, some 0) 100 false false true).2.nineam_sum
      = some 0
    ∧ (VectorBuffer.addValue (fun _ => 1) (fun _ => 0)
      (VectorBuffer.init none false true) (some 2, some 0) 100 false false true).2.interval_sum
      = some 0
    ∧ some (0 : ℚ) ≠ some (2 : ℚ) := by
  refine ⟨?_, ?_, ?_, by decide⟩ <;>
    norm_num [VectorBuffer.addValue, VectorBuffer.init, VectorBuffer.updLast,
      VectorBuffer.sumStep]

/-- The last/lasttime step touches no other field. -/
theorem updLast_frame (b : ScalarBuffer) (v : ℚ) (ts : ℤ) :
    (b.updLast v ts).day_min = b.day_min ∧
    (b.updLast v ts).day_mintime = b.day_mintime ∧
    (b.updLast v ts).day_max = b.day_max ∧
    (b.updLast v ts).day_maxtime = b.day_maxtime ∧
    (b.updLast v ts).history = b.history ∧
    (b.updLast v ts).history_full = b.history_full ∧
    (b.updLast v ts).day_sum = b.day_sum ∧
    (b.updLast v ts).nineam_sum = b.nineam_sum ∧
    (b.updLast v ts).interval_sum = b.interval_sum := by
  obtain ⟨l, lt, mn, mnt, mx, mxt, hi, hf, ds, ns, iv⟩ := b
  cases lt <;> simp [ScalarBuffer.updLast]
  split <;> simp

/-- Characterization of the min block on the day_min fields, and its frame
on every other field. -/
theorem updMin_char (b : ScalarBuffer) (v : ℚ) (ts : ℤ) :
    (b.updMin v ts).day_min
      = some (match b.day_min with | none => v | some m => if v < m then v else m) ∧
    (b.updMin v ts).day_mintime
      = (match b.day_min with
         | none => some ts | some m => if v < m then some ts else b.day_mintime) ∧
    (b.updMin v ts).day_max = b.day_max ∧
    (b.updMin v ts).day_maxtime = b.day_maxtime ∧
    (b.updMin v ts).history = b.history ∧
    (b.updMin v ts).history_full = b.history_full ∧
    (b.updMin v ts).day_sum = b.day_sum ∧
    (b.updMin v ts).nineam_sum = b.nineam_sum ∧
    (b.updMin v ts).interval_sum = b.interval_sum ∧
    (b.updMin v ts).last = b.last ∧
    (b.updMin v ts).lasttime = b.lasttime := by
  obtain ⟨l, lt, mn, mnt, mx, mxt, hi, hf, ds, ns, iv⟩ := b
  cases mn <;> simp [ScalarBuffer.updMin] <;> split_ifs <;> simp_all

/-- Characterization of the max block on the day_max fields, and its frame
on every other field. -/
theorem updMax_char (b : ScalarBuffer) (v : ℚ) (ts : ℤ) :
    (b.updMax v ts).day_max
      = some (match b.day_max with | none => v | some m => if v > m then v else m) ∧
    (b.updMax v ts).day_maxtime
      = (match b.day_max with
         | none => some ts | some m => if v > m then some ts else b.day_maxtime) ∧
    (b.updMax v ts).day_min = b.day_min ∧
    (b.updMax v ts).day_mintime = b.day_mintime ∧
    (b.updMax v ts).history = b.history ∧
    (b.updMax v ts).history_full = b.history_full ∧
    (b.updMax v ts).day_sum = b.day_sum ∧
    (b.updMax v ts).nineam_sum = b.nineam_sum ∧
    (b.updMax v ts).interval_sum = b.interval_sum ∧
    (b.updMax v ts).last = b.last ∧
    (b.updMax v ts).lasttime = b.lasttime := by
  obtain ⟨l, lt, mn, mnt, mx, mxt, hi, hf, ds, ns, iv⟩ := b
  cases mx <;> simp [ScalarBuffer.updMax] <;> split_ifs <;> simp_all

/-- Characterization of the hilo step on the min/max fields. -/
theorem updHilo_char (b : ScalarBuffer) (v : ℚ) (ts : ℤ) :
    (b.updHilo v ts).day_min
      = some (match b.day_min with | none => v | some m => if v < m then v else m) ∧
    (b.updHilo v ts).day_mintime
      = (match b.day_min with
         | none => some ts | some m => if v < m then some ts else b.day_mintime) ∧
    (b.updHilo v ts).day_max
      = some (match b.day_max with | none => v | some m => if v > m then v else m) ∧
    (b.updHilo v ts).day_maxtime
      = (match b.day_max with
         | none => some ts | some m => if v > m then some ts else b.day_maxtime) := by
  unfold ScalarBuffer.updHilo
  refine ⟨?_, ?_, ?_, ?_⟩
  · rw [(updMax_char _ v ts).2.2.1, (updMin_char b v ts).1]
  · rw [(updMax_char _ v ts).2.2.2.1, (updMin_char b v ts).2.1]
  · rw [(updMax_char _ v ts).1, (updMin_char b v ts).2.2.1]
  · rw [(updMax_char _ v ts).2.1, (updMin_char b v ts).2.2.1,
      (updMin_char b v ts).2.2.2.1]

/-- The hilo step touches no field other than min/max and their times. -/
theorem updHilo_frame (b : ScalarBuffer) (v : ℚ) (ts : ℤ) :
    (b.updHilo v ts).history = b.history ∧
    (b.updHilo v ts).history_full = b.history_full ∧
    (b.updHilo v ts).day_sum = b.day_sum ∧
    (b.updHilo v ts).nineam_sum = b.nineam_sum ∧
    (b.updHilo v ts).interval_sum = b.interval_sum ∧
    (b.updHilo v ts).last = b.last ∧
    (b.updHilo v ts).lasttime = b.lasttime := by
  unfold ScalarBuffer.updHilo
  refine ⟨?_, ?_, ?_, ?_, ?_, ?_, ?_⟩
  · rw [(updMax_char _ v ts).2.2.2.2.1, (updMin_char b v ts).2.2.2.2.1]
  · rw [(updMax_char _ v ts).2.2.2.2.2.1, (updMin_char b v ts).2.2.2.2.2.1]
  · rw [(updMax_char _ v ts).2.2.2.2.2.2.1, (updMin_char b v ts).2.2.2.2.2.2.1]
  · rw [(updMax_char _ v ts).2.2.2.2.2.2.2.1, (updMin_char b v ts).2.2.2.2.2.2.2.1]
  · rw [(updMax_char _ v ts).2.2.2.2.2.2.2.2.1, (updMin_char b v ts).2.2.2.2.2.2.2.2.1]
  · rw [(updMax_char _ v ts).2.2.2.2.2.2.2.2.2.1, (updMin_char b v ts).2.2.2.2.2.2.2.2.2.1]
  · rw [(updMax_char _ v ts).2.2.2.2.2.2.2.2.2.2, (updMin_char b v ts).2.2.2.2.2.2.2.2.2.2]

/-- The sum step touches no field other than the three accumulators. -/
theorem sumStep_frame (b : ScalarBuffer) (v : ℚ) :
    ((b.sumStep v).2).day_min = b.day_min ∧
    ((b.sumStep v).2).day_mintime = b.day_mintime ∧
    ((b.sumStep v).2).day_max = b.day_max ∧
    ((b.sumStep v).2).day_maxtime = b.day_maxtime ∧
    ((b.sumStep v).2).history = b.history ∧
    ((b.sumStep v).2).history_full = b.history_full ∧
    ((b.sumStep v).2).last = b.last ∧
    ((b.sumStep v).2).lasttime = b.lasttime := by
  obtain ⟨l, lt, mn, mnt, mx, mxt, hi, hf, ds, ns, iv⟩ := b
  cases ds <;> cases ns <;> cases iv <;> simp [ScalarBuffer.sumStep]

/-- When all three accumulators exist, the sum step succeeds and advances
them together. -/
theorem sumStep_ok (b : ScalarBuffer) (v : ℚ) (ds ns iv : ℚ)
    (hds : b.day_sum = some ds) (hns : b.nineam_sum = some ns)
    (hiv : b.interval_sum = some iv) :
    (b.sumStep v).1 = none ∧
    ((b.sumStep v).2).day_sum = some (ds + v) ∧
    ((b.sumStep v).2).nineam_sum = some (ns + v) ∧
    ((b.sumStep v).2).interval_sum = some (iv + v) := by
  obtain ⟨l, lt, mn, mnt, mx, mxt, hi, hf, ds', ns', iv'⟩ := b
  simp only at hds hns hiv
  subst hds hns hiv
  simp [ScalarBuffer.sumStep]

/-- The min/max fields after a non-null _add_value with hilo=True do not
depend on the history/sum flags (those branches never touch them, even when
they raise). -/
theorem addValue_minmax (b : ScalarBuffer) (v : ℚ) (t : ℤ) (hist sum0 : Bool) :
    ((b.addValue (some v) t true hist sum0).2).day_min
      = ((b.updLast v t).updHilo v t).day_min ∧
    ((b.addValue (some v) t true hist sum0).2).day_mintime
      = ((b.updLast v t).updHilo v t).day_mintime ∧
    ((b.addValue (some v) t true hist sum0).2).day_max
      = ((b.updLast v t).updHilo v t).day_max ∧
    ((b.addValue (some v) t true hist sum0).2).day_maxtime
      = ((b.updLast v t).updHilo v t).day_maxtime := by
  unfold ScalarBuffer.addValue
  simp only [if_true]
  cases hist <;> cases sum0
  all_goals simp [ScalarBuffer.histStep, sumStep_frame]
  all_goals cases h : ((b.updLast v t).updHilo v t).history <;>
    simp [ScalarBuffer.histStep, sumStep_frame]

/-- The vector last/lasttime step touches no other field. -/
theorem vec_updLast_frame (b : VectorBuffer) (w : ℚ) (d : Option ℚ) (ts : ℤ) :
    (b.updLast w d ts).day_min = b.day_min ∧
    (b.updLast w d ts).day_mintime = b.day_mintime ∧
    (b.updLast w d ts).day_max = b.day_max ∧
    (b.updLast w d ts).day_maxtime = b.day_maxtime ∧
    (b.updLast w d ts).history = b.history ∧
    (b.updLast w d ts).history_full = b.history_full ∧
    (b.updLast w d ts).day_sum = b.day_sum ∧
    (b.updLast w d ts).day_xsum = b.day_xsum ∧
    (b.updLast w d ts).day_ysum = b.day_ysum ∧
    (b.updLast w d ts).nineam_sum = b.nineam_sum ∧
    (b.updLast w d ts).interval_sum = b.interval_sum := by
  obtain ⟨l, lt, mn, mnt, mx, mxt, hi, hf, ds, xs, ys, ns, iv⟩ := b
  cases lt <;> simp [VectorBuffer.updLast]
  split <;> simp

/-- Characterization of the vector min block, and its frame. -/
theorem vec_updMin_char (b : VectorBuffer) (v : ℚ) (ts : ℤ) :
    (b.updMin v ts).day_min
      = some (match b.day_min with | none => v | some m => if v < m then v else m) ∧
    (b.updMin v ts).day_mintime
      = (match b.day_min with
         | none => some ts | some m => if v < m then some ts else b.day_mintime) ∧
    (b.updMin v ts).day_max = b.day_max ∧
    (b.updMin v ts).day_maxtime = b.day_maxtime ∧
    (b.updMin v ts).history = b.history ∧
    (b.updMin v ts).history_full = b.history_full ∧
    (b.updMin v ts).day_sum = b.day_sum ∧
    (b.updMin v ts).day_xsum = b.day_xsum ∧
    (b.updMin v ts).day_ysum = b.day_ysum ∧
    (b.updMin v ts).nineam_sum = b.nineam_sum ∧
    (b.updMin v ts).interval_sum = b.interval_sum := by
  obtain ⟨l, lt, mn, mnt, mx, mxt, hi, hf, ds, xs, ys, ns, iv⟩ := b
  cases mn <;> simp [VectorBuffer.updMin] <;> split_ifs <;> simp_all

/-- Characterization of the vector max block, and its frame. -/
theorem vec_updMax_char (b : VectorBuffer) (v : ℚ) (ts : ℤ) :
    (b.updMax v ts).day_max
      = some (match b.day_max with | none => v | some m => if v > m then v else m) ∧
    (b.updMax v ts).day_maxtime
      = (match b.day_max with
         | none => some ts | some m => if v > m then some ts else b.day_maxtime) ∧
    (b.updMax v ts).day_min = b.day_min ∧
    (b.updMax v ts).day_mintime = b.day_mintime ∧
    (b.updMax v ts).history = b.history ∧
    (b.updMax v ts).history_full = b.history_full ∧
    (b.updMax v ts).day_sum = b.day_sum ∧
    (b.updMax v ts).day_xsum = b.day_xsum ∧
    (b.updMax v ts).day_ysum = b.day_ysum ∧
    (b.updMax v ts).nineam_sum = b.nineam_sum ∧
    (b.updMax v ts).interval_sum = b.interval_sum := by
  obtain ⟨l, lt, mn, mnt, mx, mxt, hi, hf, ds, xs, ys, ns, iv⟩ := b
  cases mx <;> simp [VectorBuffer.updMax] <;> split_ifs <;> simp_all

/-- Characterization of the vector hilo step on the min/max fields. -/
theorem vec_updHilo_char (b : VectorBuffer) (v : ℚ) (ts : ℤ) :
    (b.updHilo v ts).day_min
      = some (match b.day_min with | none => v | some m => if v < m then v else m) ∧
    (b.updHilo v ts).day_mintime
      = (match b.day_min with
         | none => some ts | some m => if v < m then some ts else b.day_mintime) ∧
    (b.updHilo v ts).day_max
      = some (match b.day_max with | none => v | some m => if v > m then v else m) ∧
    (b.updHilo v ts).day_maxtime
      = (match b.day_max with
         | none => some ts | some m => if v > m then some ts else b.day_maxtime) := by
  unfold VectorBuffer.updHilo
  refine ⟨?_, ?_, ?_, ?_⟩
  · rw [(vec_updMax_char _ v ts).2.2.1, (vec_updMin_char b v ts).1]
  · rw [(vec_updMax_char _ v ts).2.2.2.1, (vec_updMin_char b v ts).2.1]
  · rw [(vec_updMax_char _ v ts).1, (vec_updMin_char b v ts).2.2.1]
  · rw [(vec_updMax_char _ v ts).2.1, (vec_updMin_char b v ts).2.2.1,
      (vec_updMin_char b v ts).2.2.2.1]

/-- The vector hilo step touches no field other than min/max and their
times. -/
theorem vec_updHilo_frame (b : VectorBuffer) (v : ℚ) (ts : ℤ) :
    (b.updHilo v ts).history = b.history ∧
    (b.updHilo v ts).history_full = b.history_full ∧
    (b.updHilo v ts).day_sum = b.day_sum ∧
    (b.updHilo v ts).day_xsum = b.day_xsum ∧
    (b.updHilo v ts).day_ysum = b.day_ysum ∧
    (b.updHilo v ts).nineam_sum = b.nineam_sum ∧
    (b.updHilo v ts).interval_sum = b.interval_sum := by
  unfold VectorBuffer.updHilo
  simp [vec_updMax_char, vec_updMin_char]

/-- The vector sum step advances only day_sum and (when the direction is
non-null) overwrites day_xsum/day_ysum; nineam_sum and interval_sum are
never touched, nor are the min/max/history fields. -/
theorem vec_sumStep_frame (cosd sind : ℚ → ℚ) (b : VectorBuffer) (w : ℚ)
    (d : Option ℚ) :
    ((VectorBuffer.sumStep cosd sind b w d).2).day_min = b.day_min ∧
    ((VectorBuffer.sumStep cosd sind b w d).2).day_mintime = b.day_mintime ∧
    ((VectorBuffer.sumStep cosd sind b w d).2).day_max = b.day_max ∧
    ((VectorBuffer.sumStep cosd sind b w d).2).day_maxtime = b.day_maxtime ∧
    ((VectorBuffer.sumStep cosd sind b w d).2).history = b.history ∧
    ((VectorBuffer.sumStep cosd sind b w d).2).history_full = b.history_full ∧
    ((VectorBuffer.sumStep cosd sind b w d).2).nineam_sum = b.nineam_sum ∧
    ((VectorBuffer.sumStep cosd sind b w d).2).interval_sum = b.interval_sum ∧
    ((VectorBuffer.sumStep cosd sind b w d).2).last = b.last ∧
    ((VectorBuffer.sumStep cosd sind b w d).2).lasttime = b.lasttime := by
  obtain ⟨l, lt, mn, mnt, mx, mxt, hi, hf, ds, xs, ys, ns, iv⟩ := b
  cases ds <;> cases d <;> simp [VectorBuffer.sumStep]

/-- When day_sum exists, the vector sum step succeeds, advances day_sum by
the speed, and leaves nineam_sum and interval_sum unchanged. -/
theorem vec_sumStep_ok (cosd sind : ℚ → ℚ) (b : VectorBuffer) (w : ℚ)
    (d : Option ℚ) (ds : ℚ) (hds : b.day_sum = some ds) :
    (VectorBuffer.sumStep cosd sind b w d).1 = none ∧
    ((VectorBuffer.sumStep cosd sind b w d).2).day_sum = some (ds + w) := by
  obtain ⟨l, lt, mn, mnt, mx, mxt, hi, hf, ds', xs, ys, ns, iv⟩ := b
  simp only at hds
  subst hds
  cases d <;> simp [VectorBuffer.sumStep]

/-- The vector sum step with sum0 disabled is skipped entirely; with it
enabled and the direction null, day_xsum/day_ysum are untouched; the step
never touches them when it is reached with day_sum absent either. What
matters below: with the sum flag FALSE, _add_value never touches
day_xsum/day_ysum. -/
theorem vec_addValue_nosum_xsum (cosd sind : ℚ → ℚ) (b : VectorBuffer)
    (val : Option ℚ × Option ℚ) (ts : ℤ) (hilo hist : Bool) :
    ((VectorBuffer.addValue cosd sind b val ts hilo hist false).2).day_xsum = b.day_xsum ∧
    ((VectorBuffer.addValue cosd sind b val ts hilo hist false).2).day_ysum = b.day_ysum := by
  unfold VectorBuffer.addValue
  cases hv : val.1 <;> cases hd : val.2 <;> cases hist <;> cases hilo <;>
    cases hb : b.history <;>
    simp [hb, vec_updLast_frame, vec_updHilo_frame, VectorBuffer.histStep]

/-- C5 (amended): on a sum-tracked SCALAR series, every _add_value call
with a non-null value and trackSum enabled succeeds and advances day_sum,
nineam_sum and interval_sum together by the value; on a sum-tracked VECTOR
series the same call advances only day_sum (by the speed) and leaves
nineam_sum and interval_sum unchanged. -/
theorem C5_sum_accumulators :
    (∀ (b : ScalarBuffer) (v : ℚ) (t : ℤ) (hilo : Bool) (ds ns iv : ℚ),
      b.day_sum = some ds → b.nineam_sum = some ns → b.interval_sum = some iv →
      (b.addValue (some v) t hilo false true).1 = none ∧
      ((b.addValue (some v) t hilo false true).2).day_sum = some (ds + v) ∧
      ((b.addValue (some v) t hilo false true).2).nineam_sum = some (ns + v) ∧
      ((b.addValue (some v) t hilo false true).2).interval_sum = some (iv + v)) ∧
    (∀ (cosd sind : ℚ → ℚ) (b : VectorBuffer) (w : ℚ) (d : Option ℚ) (t : ℤ)
      (hilo : Bool) (ds : ℚ), b.day_sum = some ds →
      (VectorBuffer.addValue cosd sind b (some w, d) t hilo false true).1 = none ∧
      ((VectorBuffer.addValue cosd sind b (some w, d) t hilo false true).2).day_sum
        = some (ds + w) ∧
      ((VectorBuffer.addValue cosd sind b (some w, d) t hilo false true).2).nineam_sum
        = b.nineam_sum ∧
      ((VectorBuffer.addValue cosd sind b (some w, d) t hilo false true).2).interval_sum
        = b.interval_sum) := by
  constructor
  · intro b v t hilo ds ns iv hds hns hiv
    cases hilo
    · have hk := sumStep_ok (b.updLast v t) v ds ns iv
        (by simp [updLast_frame, hds]) (by simp [updLast_frame, hns])
        (by simp [updLast_frame, hiv])
      simpa [ScalarBuffer.addValue] using hk
    · have hk := sumStep_ok ((b.updLast v t).updHilo v t) v ds ns iv
        (by simp [updLast_frame, updHilo_frame, hds])
        (by simp [updLast_frame, updHilo_frame, hns])
        (by simp [updLast_frame, updHilo_frame, hiv])
      simpa [ScalarBuffer.addValue] using hk
  · intro cosd sind b w d t hilo ds hds
    cases hilo
    · have hk := vec_sumStep_ok cosd sind (b.updLast w d t) w d ds
        (by simp [vec_updLast_frame, hds])
      have hfr := vec_sumStep_frame cosd sind (b.updLast w d t) w d
      refine ⟨?_, ?_, ?_, ?_⟩ <;>
        simp [VectorBuffer.addValue, hk.1, hk.2, hfr.2.2.2.2.2.2.1,
          hfr.2.2.2.2.2.2.2.1, vec_updLast_frame]
    · have hk := vec_sumStep_ok cosd sind ((b.updLast w d t).updHilo w t) w d ds
        (by simp [vec_updLast_frame, vec_updHilo_frame, hds])
      have hfr := vec_sumStep_frame cosd sind ((b.updLast w d t).updHilo w t) w d
      refine ⟨?_, ?_, ?_, ?_⟩ <;>
        simp [VectorBuffer.addValue, hk.1, hk.2, hfr.2.2.2.2.2.2.1,
          hfr.2.2.2.2.2.2.2.1, vec_updLast_frame, vec_updHilo_frame]

/-- Witness for C5_sum_accumulators at concrete sum-tracked buffers. -/
theorem C5_sum_accumulators_witness :
    (ScalarBuffer.addValue (ScalarBuffer.init none false true) (some 2) 5 false false true).1
      = none
    ∧ ((ScalarBuffer.addValue (ScalarBuffer.init none false true) (some 2) 5 false false true).2).day_sum
      = some (0 + 2)
    ∧ ((VectorBuffer.addValue (fun _ => 1) (fun _ => 0) (VectorBuffer.init none false true)
        (some 2, some 0) 5 false false true).2).nineam_sum
      = (VectorBuffer.init none false true).nineam_sum :=
  ⟨(C5_sum_accumulators.1 (ScalarBuffer.init none false true) 2 5 false 0 0 0 rfl rfl rfl).1,
   (C5_sum_accumulators.1 (ScalarBuffer.init none false true) 2 5 false 0 0 0 rfl rfl rfl).2.1,
   (C5_sum_accumulators.2 (fun _ => 1) (fun _ => 0) (VectorBuffer.init none false true)
      2 (some 0) 5 false 0 rfl).2.2.1⟩

/-- A scalar _add_value with (hilo, history, sum) = (True, False, False)
succeeds and is exactly the last+hilo update. -/
theorem addHL_eq (b : ScalarBuffer) (v : ℚ) (t : ℤ) :
    b.addValue (some v) t true false false = (none, (b.updLast v t).updHilo v t) := rfl

/-- After one hilo step the day_min exists, bounds the new value from below,
and is no larger than any previous day_min. -/
theorem step_min_le (b : ScalarBuffer) (v : ℚ) (t : ℤ) :
    ∃ m1, ((b.updLast v t).updHilo v t).day_min = some m1 ∧ m1 ≤ v ∧
      ∀ m0, b.day_min = some m0 → m1 ≤ m0 := by
  have h := (updHilo_char (b.updLast v t) v t).1
  rw [(updLast_frame b v t).1] at h
  cases hmn : b.day_min with
  | none =>
    rw [hmn] at h
    exact ⟨v, h, le_refl v, fun m0 h0 => Option.noConfusion h0⟩
  | some m0 =>
    simp only [hmn] at h
    by_cases hc : v < m0
    · rw [if_pos hc] at h
      exact ⟨v, h, le_refl v,
        fun m0' h0 => by injection h0 with h0; subst h0; exact hc.le⟩
    · rw [if_neg hc] at h
      exact ⟨m0, h, not_lt.mp hc,
        fun m0' h0 => by injection h0 with h0; subst h0; exact le_refl m0⟩

/-- After one hilo step the day_max exists, bounds the new value from above,
and is no smaller than any previous day_max. -/
theorem step_max_ge (b : ScalarBuffer) (v : ℚ) (t : ℤ) :
    ∃ M1, ((b.updLast v t).updHilo v t).day_max = some M1 ∧ v ≤ M1 ∧
      ∀ M0, b.day_max = some M0 → M0 ≤ M1 := by
  have h := (updHilo_char (b.updLast v t) v t).2.2.1
  rw [(updLast_frame b v t).2.2.1] at h
  cases hmx : b.day_max with
  | none =>
    rw [hmx] at h
    exact ⟨v, h, le_refl v, fun M0 h0 => Option.noConfusion h0⟩
  | some M0 =>
    simp only [hmx] at h
    by_cases hc : v > M0
    · rw [if_pos hc] at h
      exact ⟨v, h, le_refl v,
        fun M0' h0 => by injection h0 with h0; subst h0; exact hc.le⟩
    · rw [if_neg hc] at h
      exact ⟨M0, h, not_lt.mp hc,
        fun M0' h0 => by injection h0 with h0; subst h0; exact le_refl M0⟩

/-- A hilo-only fold never raises. -/
theorem addList_ok (b : ScalarBuffer) (l : List (ℚ × ℤ)) :
    (b.addList l true false false).1 = none := by
  induction l generalizing b with
  | nil => rfl
  | cons p rest ih =>
    obtain ⟨v, t⟩ := p
    simpa [ScalarBuffer.addList, addHL_eq] using ih ((b.updLast v t).updHilo v t)

/-- A hilo-only fold never increases an existing day_min. -/
theorem addList_min_mono (b : ScalarBuffer) (l : List (ℚ × ℤ)) (m : ℚ)
    (hm : b.day_min = some m) :
    ∃ m', ((b.addList l true false false).2).day_min = some m' ∧ m' ≤ m := by
  induction l generalizing b m with
  | nil => exact ⟨m, by simpa [ScalarBuffer.addList] using hm, le_refl m⟩
  | cons p rest ih =>
    obtain ⟨v, t⟩ := p
    obtain ⟨m1, hm1, _, hm1old⟩ := step_min_le b v t
    obtain ⟨m', hm', hle⟩ := ih ((b.updLast v t).updHilo v t) m1 hm1
    exact ⟨m', by simpa [ScalarBuffer.addList, addHL_eq] using hm',
      hle.trans (hm1old m hm)⟩

/-- A hilo-only fold never decreases an existing day_max. -/
theorem addList_max_mono (b : ScalarBuffer) (l : List (ℚ × ℤ)) (M : ℚ)
    (hM : b.day_max = some M) :
    ∃ M', ((b.addList l true false false).2).day_max = some M' ∧ M ≤ M' := by
  induction l generalizing b M with
  | nil => exact ⟨M, by simpa [ScalarBuffer.addList] using hM, le_refl M⟩
  | cons p rest ih =>
    obtain ⟨v, t⟩ := p
    obtain ⟨M1, hM1, _, hM1old⟩ := step_max_ge b v t
    obtain ⟨M', hM', hle⟩ := ih ((b.updLast v t).updHilo v t) M1 hM1
    exact ⟨M', by simpa [ScalarBuffer.addList, addHL_eq] using hM',
      (hM1old M hM).trans hle⟩

/-- Every value fed to a hilo-only fold is bracketed by the final day_min
and day_max. -/
theorem addList_inv (b : ScalarBuffer) (l : List (ℚ × ℤ)) :
    ∀ p ∈ l, ∃ m M, ((b.addList l true false false).2).day_min = some m ∧
      ((b.addList l true false false).2).day_max = some M ∧
      m ≤ p.1 ∧ p.1 ≤ M := by
  induction l generalizing b with
  | nil => intro p hp; cases hp
  | cons q rest ih =>
    intro p hp
    obtain ⟨v, t⟩ := q
    rcases List.mem_cons.mp hp with hpq | hpr
    · subst hpq
      obtain ⟨m1, hm1, hm1v, _⟩ := step_min_le b v t
      obtain ⟨M1, hM1, hM1v, _⟩ := step_max_ge b v t
      obtain ⟨m', hm', hmle⟩ := addList_min_mono ((b.updLast v t).updHilo v t) rest m1 hm1
      obtain ⟨M', hM', hMge⟩ := addList_max_mono ((b.updLast v t).updHilo v t) rest M1 hM1
      exact ⟨m', M', by simpa [ScalarBuffer.addList, addHL_eq] using hm',
        by simpa [ScalarBuffer.addList, addHL_eq] using hM',
        hmle.trans hm1v, hM1v.trans hMge⟩
    · obtain ⟨m, M, h1, h2, h3, h4⟩ := ih ((b.updLast v t).updHilo v t) p hpr
      exact ⟨m, M, by simpa [ScalarBuffer.addList, addHL_eq] using h1,
        by simpa [ScalarBuffer.addList, addHL_eq] using h2, h3, h4⟩

/-- A vector _add_value with (hilo, history, sum) = (True, False, False)
succeeds and is exactly the last+hilo update on the speed. -/
theorem vec_addHL_eq (cosd sind : ℚ → ℚ) (b : VectorBuffer) (w : ℚ)
    (d : Option ℚ) (t : ℤ) :
    VectorBuffer.addValue cosd sind b (some w, d) t true false false
      = (none, (b.updLast w d t).updHilo w t) := rfl

/-- Vector version of step_min_le. -/
theorem vec_step_min_le (b : VectorBuffer) (w : ℚ) (d : Option ℚ) (t : ℤ) :
    ∃ m1, ((b.updLast w d t).updHilo w t).day_min = some m1 ∧ m1 ≤ w ∧
      ∀ m0, b.day_min = some m0 → m1 ≤ m0 := by
  have h := (vec_updHilo_char (b.updLast w d t) w t).1
  rw [(vec_updLast_frame b w d t).1] at h
  cases hmn : b.day_min with
  | none =>
    rw [hmn] at h
    exact ⟨w, h, le_refl w, fun m0 h0 => Option.noConfusion h0⟩
  | some m0 =>
    simp only [hmn] at h
    by_cases hc : w < m0
    · rw [if_pos hc] at h
      exact ⟨w, h, le_refl w,
        fun m0' h0 => by injection h0 with h0; subst h0; exact hc.le⟩
    · rw [if_neg hc] at h
      exact ⟨m0, h, not_lt.mp hc,
        fun m0' h0 => by injection h0 with h0; subst h0; exact le_refl m0⟩

/-- Vector version of step_max_ge. -/
theorem vec_step_max_ge (b : VectorBuffer) (w : ℚ) (d : Option ℚ) (t : ℤ) :
    ∃ M1, ((b.updLast w d t).updHilo w t).day_max = some M1 ∧ w ≤ M1 ∧
      ∀ M0, b.day_max = some M0 → M0 ≤ M1 := by
  have h := (vec_updHilo_char (b.updLast w d t) w t).2.2.1
  rw [(vec_updLast_frame b w d t).2.2.1] at h
  cases hmx : b.day_max with
  | none =>
    rw [hmx] at h
    exact ⟨w, h, le_refl w, fun M0 h0 => Option.noConfusion h0⟩
  | some M0 =>
    simp only [hmx] at h
    by_cases hc : w > M0
    · rw [if_pos hc] at h
      exact ⟨w, h, le_refl w,
        fun M0' h0 => by injection h0 with h0; subst h0; exact hc.le⟩
    · rw [if_neg hc] at h
      exact ⟨M0, h, not_lt.mp hc,
        fun M0' h0 => by injection h0 with h0; subst h0; exact le_refl M0⟩

/-- A vector hilo-only fold never raises. -/
theorem vec_addList_ok (cosd sind : ℚ → ℚ) (b : VectorBuffer)
    (l : List (ℚ × Option ℚ × ℤ)) :
    (VectorBuffer.addList cosd sind b l true false false).1 = none := by
  induction l generalizing b with
  | nil => rfl
  | cons p rest ih =>
    obtain ⟨w, d, t⟩ := p
    simpa [VectorBuffer.addList, vec_addHL_eq] using
      ih ((b.updLast w d t).updHilo w t)

/-- A vector hilo-only fold never increases an existing day_min. -/
theorem vec_addList_min_mono (cosd sind : ℚ → ℚ) (b : VectorBuffer)
    (l : List (ℚ × Option ℚ × ℤ)) (m : ℚ) (hm : b.day_min = some m) :
    ∃ m', ((VectorBuffer.addList cosd sind b l true false false).2).day_min
      = some m' ∧ m' ≤ m := by
  induction l generalizing b m with
  | nil => exact ⟨m, by simpa [VectorBuffer.addList] using hm, le_refl m⟩
  | cons p rest ih =>
    obtain ⟨w, d, t⟩ := p
    obtain ⟨m1, hm1, _, hm1old⟩ := vec_step_min_le b w d t
    obtain ⟨m', hm', hle⟩ := ih ((b.updLast w d t).updHilo w t) m1 hm1
    exact ⟨m', by simpa [VectorBuffer.addList, vec_addHL_eq] using hm',
      hle.trans (hm1old m hm)⟩

/-- A vector hilo-only fold never decreases an existing day_max. -/
theorem vec_addList_max_mono (cosd sind : ℚ → ℚ) (b : VectorBuffer)
    (l : List (ℚ × Option ℚ × ℤ)) (M : ℚ) (hM : b.day_max = some M) :
    ∃ M', ((VectorBuffer.addList cosd sind b l true false false).2).day_max
      = some M' ∧ M ≤ M' := by
  induction l generalizing b M with
  | nil => exact ⟨M, by simpa [VectorBuffer.addList] using hM, le_refl M⟩
  | cons p rest ih =>
    obtain ⟨w, d, t⟩ := p
    obtain ⟨M1, hM1, _, hM1old⟩ := vec_step_max_ge b w d t
    obtain ⟨M', hM', hle⟩ := ih ((b.updLast w d t).updHilo w t) M1 hM1
    exact ⟨M', by simpa [VectorBuffer.addList, vec_addHL_eq] using hM',
      (hM1old M hM).trans hle⟩

/-- Every speed fed to a vector hilo-only fold is bracketed by the final
day_min and day_max. -/
theorem vec_addList_inv (cosd sind : ℚ → ℚ) (b : VectorBuffer)
    (l : List (ℚ × Option ℚ × ℤ)) :
    ∀ p ∈ l, ∃ m M,
      ((VectorBuffer.addList cosd sind b l true false false).2).day_min = some m ∧
      ((VectorBuffer.addList cosd sind b l true false false).2).day_max = some M ∧
      m ≤ p.1 ∧ p.1 ≤ M := by
  induction l generalizing b with
  | nil => intro p hp; cases hp
  | cons q rest ih =>
    intro p hp
    obtain ⟨w, d, t⟩ := q
    rcases List.mem_cons.mp hp with hpq | hpr
    · subst hpq
      obtain ⟨m1, hm1, hm1v, _⟩ := vec_step_min_le b w d t
      obtain ⟨M1, hM1, hM1v, _⟩ := vec_step_max_ge b w d t
      obtain ⟨m', hm', hmle⟩ :=
        vec_addList_min_mono cosd sind ((b.updLast w d t).updHilo w t) rest m1 hm1
      obtain ⟨M', hM', hMge⟩ :=
        vec_addList_max_mono cosd sind ((b.updLast w d t).updHilo w t) rest M1 hM1
      exact ⟨m', M', by simpa [VectorBuffer.addList, vec_addHL_eq] using hm',
        by simpa [VectorBuffer.addList, vec_addHL_eq] using hM',
        hmle.trans hm1v, hM1v.trans hMge⟩
    · obtain ⟨m, M, h1, h2, h3, h4⟩ := ih ((b.updLast w d t).updHilo w t) p hpr
      exact ⟨m, M, by simpa [VectorBuffer.addList, vec_addHL_eq] using h1,
        by simpa [VectorBuffer.addList, vec_addHL_eq] using h2, h3, h4⟩

/-- The vector min/max fields after a non-null _add_value with hilo=True do
not depend on the history/sum flags. -/
theorem vec_addValue_minmax (cosd sind : ℚ → ℚ) (b : VectorBuffer) (w : ℚ)
    (d : Option ℚ) (t : ℤ) (hist sum0 : Bool) :
    ((VectorBuffer.addValue cosd sind b (some w, d) t true hist sum0).2).day_min
      = ((b.updLast w d t).updHilo w t).day_min ∧
    ((VectorBuffer.addValue cosd sind b (some w, d) t true hist sum0).2).day_mintime
      = ((b.updLast w d t).updHilo w t).day_mintime ∧
    ((VectorBuffer.addValue cosd sind b (some w, d) t true hist sum0).2).day_max
      = ((b.updLast w d t).updHilo w t).day_max ∧
    ((VectorBuffer.addValue cosd sind b (some w, d) t true hist sum0).2).day_maxtime
      = ((b.updLast w d t).updHilo w t).day_maxtime := by
  unfold VectorBuffer.addValue
  cases hd : d <;> cases hist <;> cases sum0 <;> cases hb : b.history <;>
    simp [hb, VectorBuffer.histStep, vec_sumStep_frame, vec_updLast_frame,
      vec_updHilo_frame, vec_updHilo_char, updLast_frame]

/-- C6: for every hi/lo-tracked series (scalar or vector), (a) a fold of
non-null _add_value calls from an unseeded min/max never raises, and every
value added is bracketed by the final day_min and day_max; (b) the first
value seen becomes both min and max with its timestamp; (c) min/max are
updated only on strict comparisons: a value not strictly below the current
min (resp. not strictly above the current max) leaves the field and its
timestamp unchanged, while a strictly smaller (resp. larger) value installs
itself with its timestamp. -/
theorem C6_day_min_max_invariant :
    (∀ (b : ScalarBuffer) (l : List (ℚ × ℤ)),
      b.day_min = none → b.day_max = none →
      (b.addList l true false false).1 = none ∧
      ∀ p ∈ l, ∃ m M, ((b.addList l true false false).2).day_min = some m ∧
        ((b.addList l true false false).2).day_max = some M ∧
        m ≤ p.1 ∧ p.1 ≤ M) ∧
    (∀ (b : ScalarBuffer) (v : ℚ) (t : ℤ) (hist sum0 : Bool),
      b.day_min = none → b.day_max = none →
      ((b.addValue (some v) t true hist sum0).2).day_min = some v ∧
      ((b.addValue (some v) t true hist sum0).2).day_mintime = some t ∧
      ((b.addValue (some v) t true hist sum0).2).day_max = some v ∧
      ((b.addValue (some v) t true hist sum0).2).day_maxtime = some t) ∧
    (∀ (b : ScalarBuffer) (v m : ℚ) (t : ℤ) (hist sum0 : Bool),
      b.day_min = some m → ¬ v < m →
      ((b.addValue (some v) t true hist sum0).2).day_min = some m ∧
      ((b.addValue (some v) t true hist sum0).2).day_mintime = b.day_mintime) ∧
    (∀ (b : ScalarBuffer) (v m : ℚ) (t : ℤ) (hist sum0 : Bool),
      b.day_min = some m → v < m →
      ((b.addValue (some v) t true hist sum0).2).day_min = some v ∧
      ((b.addValue (some v) t true hist sum0).2).day_mintime = some t) ∧
    (∀ (b : ScalarBuffer) (v M : ℚ) (t : ℤ) (hist sum0 : Bool),
      b.day_max = some M → ¬ v > M →
      ((b.addValue (some v) t true hist sum0).2).day_max = some M ∧
      ((b.addValue (some v) t true hist sum0).2).day_maxtime = b.day_maxtime) ∧
    (∀ (b : ScalarBuffer) (v M : ℚ) (t : ℤ) (hist sum0 : Bool),
      b.day_max = some M → v > M →
      ((b.addValue (some v) t true hist sum0).2).day_max = some v ∧
      ((b.addValue (some v) t true hist sum0).2).day_maxtime = some t) ∧
    (∀ (cosd sind : ℚ → ℚ) (b : VectorBuffer) (l : List (ℚ × Option ℚ × ℤ)),
      b.day_min = none → b.day_max = none →
      (VectorBuffer.addList cosd sind b l true false false).1 = none ∧
      ∀ p ∈ l, ∃ m M,
        ((VectorBuffer.addList cosd sind b l true false false).2).day_min = some m ∧
        ((VectorBuffer.addList cosd sind b l true false false).2).day_max = some M ∧
        m ≤ p.1 ∧ p.1 ≤ M) ∧
    (∀ (cosd sind : ℚ → ℚ) (b : VectorBuffer) (w : ℚ) (d : Option ℚ) (t : ℤ)
      (hist sum0 : Bool), b.day_min = none → b.day_max = none →
      ((VectorBuffer.addValue cosd sind b (some w, d) t true hist sum0).2).day_min = some w ∧
      ((VectorBuffer.addValue cosd sind b (some w, d) t true hist sum0).2).day_mintime = some t ∧
      ((VectorBuffer.addValue cosd sind b (some w, d) t true hist sum0).2).day_max = some w ∧
      ((VectorBuffer.addValue cosd sind b (some w, d) t true hist sum0).2).day_maxtime = some t) ∧
    (∀ (cosd sind : ℚ → ℚ) (b : VectorBuffer) (w m : ℚ) (d : Option ℚ) (t : ℤ)
      (hist sum0 : Bool), b.day_min = some m → ¬ w < m →
      ((VectorBuffer.addValue cosd sind b (some w, d) t true hist sum0).2).day_min = some m ∧
      ((VectorBuffer.addValue cosd sind b (some w, d) t true hist sum0).2).day_mintime
        = b.day_mintime) ∧
    (∀ (cosd sind : ℚ → ℚ) (b : VectorBuffer) (w m : ℚ) (d : Option ℚ) (t : ℤ)
      (hist sum0 : Bool), b.day_min = some m → w < m →
      ((VectorBuffer.addValue cosd sind b (some w, d) t true hist sum0).2).day_min = some w ∧
      ((VectorBuffer.addValue cosd sind b (some w, d) t true hist sum0).2).day_mintime
        = some t) ∧
    (∀ (cosd sind : ℚ → ℚ) (b : VectorBuffer) (w M : ℚ) (d : Option ℚ) (t : ℤ)
      (hist sum0 : Bool), b.day_max = some M → ¬ w > M →
      ((VectorBuffer.addValue cosd sind b (some w, d) t true hist sum0).2).day_max = some M ∧
      ((VectorBuffer.addValue cosd sind b (some w, d) t true hist sum0).2).day_maxtime
        = b.day_maxtime) ∧
    (∀ (cosd sind : ℚ → ℚ) (b : VectorBuffer) (w M : ℚ) (d : Option ℚ) (t : ℤ)
      (hist sum0 : Bool), b.day_max = some M → w > M →
      ((VectorBuffer.addValue cosd sind b (some w, d) t true hist sum0).2).day_max = some w ∧
      ((VectorBuffer.addValue cosd sind b (some w, d) t true hist sum0).2).day_maxtime
        = some t) := by
  refine ⟨?_, ?_, ?_, ?_, ?_, ?_, ?_, ?_, ?_, ?_, ?_, ?_⟩
  · intro b l _ _
    exact ⟨addList_ok b l, addList_inv b l⟩
  · intro b v t hist sum0 hmn hmx
    have h := addValue_minmax b v t hist sum0
    refine ⟨?_, ?_, ?_, ?_⟩ <;>
      simp [h.1, h.2.1, h.2.2.1, h.2.2.2, updHilo_char, updLast_frame, hmn, hmx]
  · intro b v m t hist sum0 hm hnlt
    have h := addValue_minmax b v t hist sum0
    refine ⟨?_, ?_⟩ <;>
      simp [h.1, h.2.1, updHilo_char, updLast_frame, hm, hnlt]
  · intro b v m t hist sum0 hm hlt
    have h := addValue_minmax b v t hist sum0
    refine ⟨?_, ?_⟩ <;>
      simp [h.1, h.2.1, updHilo_char, updLast_frame, hm, hlt]
  · intro b v M t hist sum0 hM hngt
    have h := addValue_minmax b v t hist sum0
    refine ⟨?_, ?_⟩ <;>
      simp [h.2.2.1, h.2.2.2, updHilo_char, updLast_frame, hM, hngt]
  · intro b v M t hist sum0 hM hgt
    have h := addValue_minmax b v t hist sum0
    refine ⟨?_, ?_⟩ <;>
      simp [h.2.2.1, h.2.2.2, updHilo_char, updLast_frame, hM, hgt]
  · intro cosd sind b l _ _
    exact ⟨vec_addList_ok cosd sind b l, vec_addList_inv cosd sind b l⟩
  · intro cosd sind b w d t hist sum0 hmn hmx
    have h := vec_addValue_minmax cosd sind b w d t hist sum0
    refine ⟨?_, ?_, ?_, ?_⟩ <;>
      simp [h.1, h.2.1, h.2.2.1, h.2.2.2, vec_updHilo_char, vec_updLast_frame, hmn, hmx]
  · intro cosd sind b w m d t hist sum0 hm hnlt
    have h := vec_addValue_minmax cosd sind b w d t hist sum0
    refine ⟨?_, ?_⟩ <;>
      simp [h.1, h.2.1, vec_updHilo_char, vec_updLast_frame, hm, hnlt]
  · intro cosd sind b w m d t hist sum0 hm hlt
    have h := vec_addValue_minmax cosd sind b w d t hist sum0
    refine ⟨?_, ?_⟩ <;>
      simp [h.1, h.2.1, vec_updHilo_char, vec_updLast_frame, hm, hlt]
  · intro cosd sind b w M d t hist sum0 hM hngt
    have h := vec_addValue_minmax cosd sind b w d t hist sum0
    refine ⟨?_, ?_⟩ <;>
      simp [h.2.2.1, h.2.2.2, vec_updHilo_char, vec_updLast_frame, hM, hngt]
  · intro cosd sind b w M d t hist sum0 hM hgt
    have h := vec_addValue_minmax cosd sind b w d t hist sum0
    refine ⟨?_, ?_⟩ <;>
      simp [h.2.2.1, h.2.2.2, vec_updHilo_char, vec_updLast_frame, hM, hgt]

/-- Witness for C6_day_min_max_invariant: the spec's end-to-end scenario
(10@1000, 15@1100, 5@1200) on a freshly created unseeded scalar series. -/
theorem C6_day_min_max_invariant_witness :
    ((ScalarBuffer.init none false false).addList
      [(10, 1000), (15, 1100), (5, 1200)] true false false).1 = none
    ∧ ∀ p ∈ ([(10, 1000), (15, 1100), (5, 1200)] : List (ℚ × ℤ)),
      ∃ m M, (((ScalarBuffer.init none false false).addList
          [(10, 1000), (15, 1100), (5, 1200)] true false false).2).day_min = some m ∧
        (((ScalarBuffer.init none false false).addList
          [(10, 1000), (15, 1100), (5, 1200)] true false false).2).day_max = some M ∧
        m ≤ p.1 ∧ p.1 ≤ M :=
  C6_day_min_max_invariant.1 (ScalarBuffer.init none false false)
    [(10, 1000), (15, 1100), (5, 1200)] rfl rfl

/-- C9: for every series state (scalar or vector), day_reset clears exactly
day min/max and their timestamps and zeroes day_sum, leaving last/lasttime,
the history list, history_full, nineam_sum (fixedHourSum) and interval_sum
— and, for vectors, day_xsum/day_ysum — unchanged; interval_reset changes
only interval_sum (to zero) and leaves every other field unchanged. -/
theorem C9_reset_frame :
    (∀ (b : ScalarBuffer),
      b.day_reset.day_min = none ∧ b.day_reset.day_mintime = none ∧
      b.day_reset.day_max = none ∧ b.day_reset.day_maxtime = none ∧
      b.day_reset.day_sum = some 0 ∧
      b.day_reset.history = b.history ∧
      b.day_reset.history_full = b.history_full ∧
      b.day_reset.nineam_sum = b.nineam_sum ∧
      b.day_reset.interval_sum = b.interval_sum ∧
      b.day_reset.last = b.last ∧ b.day_reset.lasttime = b.lasttime) ∧
    (∀ (b : ScalarBuffer),
      b.interval_reset.interval_sum = some 0 ∧
      b.interval_reset.day_min = b.day_min ∧
      b.interval_reset.day_mintime = b.day_mintime ∧
      b.interval_reset.day_max = b.day_max ∧
      b.interval_reset.day_maxtime = b.day_maxtime ∧
      b.interval_reset.day_sum = b.day_sum ∧
      b.interval_reset.history = b.history ∧
      b.interval_reset.history_full = b.history_full ∧
      b.interval_reset.nineam_sum = b.nineam_sum ∧
      b.interval_reset.last = b.last ∧ b.interval_reset.lasttime = b.lasttime) ∧
    (∀ (b : VectorBuffer),
      b.day_reset.day_min = none ∧ b.day_reset.day_mintime = none ∧
      b.day_reset.day_max = none ∧ b.day_reset.day_maxtime = none ∧
      b.day_reset.day_sum = some 0 ∧
      b.day_reset.history = b.history ∧
      b.day_reset.history_full = b.history_full ∧
      b.day_reset.day_xsum = b.day_xsum ∧
      b.day_reset.day_ysum = b.day_ysum ∧
      b.day_reset.nineam_sum = b.nineam_sum ∧
      b.day_reset.interval_sum = b.interval_sum ∧
      b.day_reset.last = b.last ∧ b.day_reset.lasttime = b.lasttime) ∧
    (∀ (b : VectorBuffer),
      b.interval_reset.interval_sum = some 0 ∧
      b.interval_reset.day_min = b.day_min ∧
      b.interval_reset.day_mintime = b.day_mintime ∧
      b.interval_reset.day_max = b.day_max ∧
      b.interval_reset.day_maxtime = b.day_maxtime ∧
      b.interval_reset.day_sum = b.day_sum ∧
      b.interval_reset.history = b.history ∧
      b.interval_reset.history_full = b.history_full ∧
      b.interval_reset.day_xsum = b.day_xsum ∧
      b.interval_reset.day_ysum = b.day_ysum ∧
      b.interval_reset.nineam_sum = b.nineam_sum ∧
      b.interval_reset.last = b.last ∧ b.interval_reset.lasttime = b.lasttime) := by
  refine ⟨fun b => ?_, fun b => ?_, fun b => ?_, fun b => ?_⟩ <;>
    simp [ScalarBuffer.day_reset, ScalarBuffer.interval_reset,
      VectorBuffer.day_reset, VectorBuffer.interval_reset]

/-- One add_wind_value call never changes the 'wind' vector series'
day_xsum/day_ysum (read through the optional buffer: absent buffer or
absent attribute reads as none). -/
theorem add_wind_step_xsum (cosd sind : ℚ → ℚ) (b : RtcrBuffer)
    (ws wd : Option ℚ) (dt : ℤ) (hilo hist sum0 : Bool) :
    (((RtcrBuffer.add_wind_value cosd sind b ws wd dt hilo hist sum0).2).wind.bind
        VectorBuffer.day_xsum) = b.wind.bind VectorBuffer.day_xsum ∧
    (((RtcrBuffer.add_wind_value cosd sind b ws wd dt hilo hist sum0).2).wind.bind
        VectorBuffer.day_ysum) = b.wind.bind VectorBuffer.day_ysum := by
  have hadd : ∀ (obs : String) (v : Option ℚ) (f1 f2 f3 : Bool),
      ((b.add_value obs v dt f1 f2 f3).2).wind = b.wind := by
    intro obs v f1 f2 f3
    unfold RtcrBuffer.add_value
    rcases h : (match lookupA b.scalars obs with
      | some sb => sb
      | none => ScalarBuffer.init none f2 f3).addValue v dt f1 f2 f3 with ⟨err, sb'⟩
    simp [h]
  unfold RtcrBuffer.add_wind_value
  rcases ha : b.add_value "windSpeed" ws dt hilo hist sum0 with ⟨err, b1⟩
  have hw1 : b1.wind = b.wind := by
    have h2 := hadd "windSpeed" ws hilo hist sum0
    rw [ha] at h2
    simpa using h2
  cases err with
  | some e => simp [hw1]
  | none =>
    simp only []
    rcases hws : ws with _ | w <;>
      rcases hlt : b1.last_windSpeed_ts with _ | lt <;>
      cases hw : b.wind <;>
      simp [hlt, hw1, hw, vec_addValue_nosum_xsum, VectorBuffer.init]

/-- C10: over any sequence of wind samples routed through add_wind_value
(the buffer's addSample path for wind), the 'wind' VectorBuffer's
day_xsum/day_ysum accumulators are never modified — the routing always
invokes the vector add with sum-tracking disabled — and therefore vec_dir,
which reads only those two fields, returns the same result before and after
any such sequence; its inputs can only be the values seeded at
construction. -/
theorem C10_wind_sums_frame :
    (∀ (cosd sind : ℚ → ℚ) (b : RtcrBuffer)
      (samples : List (Option ℚ × Option ℚ × ℤ)) (hilo hist sum0 : Bool),
      ((b.addWindSeq cosd sind samples hilo hist sum0).wind.bind VectorBuffer.day_xsum)
        = b.wind.bind VectorBuffer.day_xsum ∧
      ((b.addWindSeq cosd sind samples hilo hist sum0).wind.bind VectorBuffer.day_ysum)
        = b.wind.bind VectorBuffer.day_ysum) ∧
    (∀ (atan2d : ℚ → ℚ → ℚ) (cosd sind : ℚ → ℚ) (b : RtcrBuffer)
      (samples : List (Option ℚ × Option ℚ × ℤ)) (hilo hist sum0 : Bool)
      (w w' : VectorBuffer), b.wind = some w →
      (b.addWindSeq cosd sind samples hilo hist sum0).wind = some w' →
      w'.vec_dir atan2d = w.vec_dir atan2d) := by
  have hseq : ∀ (cosd sind : ℚ → ℚ) (samples : List (Option ℚ × Option ℚ × ℤ))
      (b : RtcrBuffer) (hilo hist sum0 : Bool),
      ((b.addWindSeq cosd sind samples hilo hist sum0).wind.bind VectorBuffer.day_xsum)
        = b.wind.bind VectorBuffer.day_xsum ∧
      ((b.addWindSeq cosd sind samples hilo hist sum0).wind.bind VectorBuffer.day_ysum)
        = b.wind.bind VectorBuffer.day_ysum := by
    intro cosd sind samples
    induction samples with
    | nil => intro b hilo hist sum0; exact ⟨rfl, rfl⟩
    | cons s rest ih =>
      intro b hilo hist sum0
      have hstep := add_wind_step_xsum cosd sind b s.1 s.2.1 s.2.2 hilo hist sum0
      have hr := ih ((RtcrBuffer.add_wind_value cosd sind b s.1 s.2.1 s.2.2 hilo hist sum0).2)
        hilo hist sum0
      have hcons : b.addWindSeq cosd sind (s :: rest) hilo hist sum0
          = ((RtcrBuffer.add_wind_value cosd sind b s.1 s.2.1 s.2.2 hilo hist sum0).2).addWindSeq
            cosd sind rest hilo hist sum0 := rfl
      exact ⟨by rw [hcons, hr.1, hstep.1], by rw [hcons, hr.2, hstep.2]⟩
  refine ⟨fun cosd sind b samples hilo hist sum0 => hseq cosd sind samples b hilo hist sum0,
    ?_⟩
  intro atan2d cosd sind b samples hilo hist sum0 w w' hw hfin
  have h1 := (hseq cosd sind samples b hilo hist sum0).1
  have h2 := (hseq cosd sind samples b hilo hist sum0).2
  rw [hw, hfin] at h1 h2
  simp only [Option.some_bind] at h1 h2
  unfold VectorBuffer.vec_dir
  rw [h1, h2]

/-- Witness for C10_wind_sums_frame at a concrete seeded wind buffer and
one wind sample. -/
theorem C10_wind_sums_frame_witness :
    VectorBuffer.vec_dir (fun y x => y + x)
      (((RtcrBuffer.addWindSeq (fun d => d) (fun d => d)
        { scalars := [], wind := some (VectorBuffer.init none true true),
          windrun := 0, last_windSpeed_ts := none }
        [(some 5, some 90, 100)] true true false).wind).getD
        (VectorBuffer.init none true false))
      = VectorBuffer.vec_dir (fun y x => y + x) (VectorBuffer.init none true true) := by
  have h := C10_wind_sums_frame.2 (fun y x => y + x) (fun d => d) (fun d => d)
    { scalars := [], wind := some (VectorBuffer.init none true true),
      windrun := 0, last_windSpeed_ts := none }
    [(some 5, some 90, 100)] true true false (VectorBuffer.init none true true) _ rfl rfl
  exact h

/-- Looking up a key of a key-indexed map-built association list hits the
mapped entry. -/
theorem lookupA_map_self {α : Type} (l : List String) (f : String → α)
    (obs : String) (h : obs ∈ l) :
    lookupA (l.map (fun o => (o, f o))) obs = some (f obs) := by
  induction l with
  | nil => cases h
  | cons a rest ih =>
    by_cases hh : a = obs
    · subst hh; simp [lookupA]
    · have hr : obs ∈ rest := by
        rcases List.mem_cons.mp h with rfl | hr
        · exact absurd rfl hh
        · exact hr
      simp [lookupA, hh, ih hr]

/-- A dict store never removes a key. -/
theorem lookupA_setA_isSome {α : Type} (l : List (String × α)) (k obs : String)
    (v : α) (h : ∃ e, lookupA l obs = some e) :
    ∃ e, lookupA (setA l k v) obs = some e := by
  induction l with
  | nil =>
    obtain ⟨e, he⟩ := h
    simp [lookupA] at he
  | cons p rest ih =>
    obtain ⟨k0, w⟩ := p
    obtain ⟨e, he⟩ := h
    by_cases hk : k0 = k
    · subst hk
      by_cases ho : k0 = obs
      · subst ho
        exact ⟨v, by simp [setA, lookupA]⟩
      · refine ⟨e, ?_⟩
        simp [setA, lookupA, ho] at he ⊢
        exact he
    · by_cases ho : k0 = obs
      · subst ho
        exact ⟨w, by simp [setA, lookupA, hk]⟩
      · simp [setA, lookupA, ho, hk] at he ⊢
        exact ih ⟨e, he⟩

/-- The update loop never removes a key from the cache. -/
theorem foldl_cacheStore_keeps (fields : List (String × Option ℚ)) (ts : ℤ)
    (c : CachedPacket) (obs : String) (h : ∃ e, lookupA c.cache obs = some e) :
    ∃ e, lookupA ((fields.foldl (cacheStore ts) c).cache) obs = some e := by
  induction fields generalizing c with
  | nil => exact h
  | cons f rest ih =>
    have hstep : ∃ e, lookupA ((cacheStore ts c f).cache) obs = some e := by
      unfold cacheStore
      cases hf : f.2 with
      | none => exact h
      | some v => exact lookupA_setA_isSome c.cache f.1 obs _ h
    simpa [List.foldl] using ih (cacheStore ts c f) hstep

/-- Every required obs has a cache slot in every reachable cache state. -/
theorem reachable_obs_present (c : CachedPacket) (h : CachedPacket.Reachable c)
    (obs : String) (ho : obs ∈ OBS) :
    ∃ e, lookupA c.cache obs = some e := by
  induction h with
  | init rec now =>
    simp only [CachedPacket.init]
    exact ⟨_, lookupA_map_self OBS _ obs ho⟩
  | update c' conv packet ts hc ihc =>
    obtain ⟨e, he⟩ := ihc
    cases hu : packet.usUnits with
    | none => exact ⟨e, by simp [CachedPacket.update, hu, he]⟩
    | some us =>
      cases hcu : c'.unit_system with
      | none =>
        have hbase : lookupA ({ c' with unit_system := some us } : CachedPacket).cache obs
            = some e := he
        have hfold := foldl_cacheStore_keeps packet.fields ts
          { c' with unit_system := some us } obs ⟨e, hbase⟩
        simpa [CachedPacket.update, hu, hcu] using hfold
      | some u0 =>
        have hfold := foldl_cacheStore_keeps
          (if u0 ≠ us then conv packet u0 else packet).fields ts c' obs ⟨e, he⟩
        simpa [CachedPacket.update, hu, hcu] using hfold

/-- Looking a key up in the snapshot produced by get_packet yields exactly
what get_value returns for that key. -/
theorem lookupA_map_fst {α β : Type} (l : List (String × α)) (g : String → β)
    (obs : String) (e : α) (h : lookupA l obs = some e) :
    lookupA (l.map (fun p => (p.1, g p.1))) obs = some (g obs) := by
  induction l with
  | nil => simp [lookupA] at h
  | cons p rest ih =>
    by_cases hp : p.1 = obs
    · subst hp; simp [lookupA]
    · simp [lookupA, hp] at h ⊢
      exact ih h

/-- A present cache slot appears in the snapshot with its cached value when
fresh enough, and with null otherwise. -/
theorem get_packet_field (c : CachedPacket) (ts max_age : ℤ) (obs : String)
    (e : CacheEntry) (he : lookupA c.cache obs = some e) :
    lookupA ((c.get_packet ts max_age).fields) obs
      = some (if ts - e.ts ≤ max_age then e.value else none) := by
  have hv : c.get_value obs ts max_age = (if ts - e.ts ≤ max_age then e.value else none) := by
    unfold CachedPacket.get_value
    rw [he]
  have hm := lookupA_map_fst c.cache (fun s => c.get_value s ts max_age) obs e he
  unfold CachedPacket.get_packet
  rw [hm]
  simp [hv]

/-- C7: for every cache state reachable by construction followed by any
sequence of update calls, get_packet(asOf, maxAge) contains every field of
the required-fields manifest OBS; the field carries its cached value
exactly when asOf − cachedTimestamp ≤ maxAge and null otherwise. -/
theorem C7_snapshot_complete (c : CachedPacket) (h : CachedPacket.Reachable c)
    (ts max_age : ℤ) :
    ∀ obs ∈ OBS, ∃ e, lookupA c.cache obs = some e ∧
      lookupA ((c.get_packet ts max_age).fields) obs
        = some (if ts - e.ts ≤ max_age then e.value else none) := by
  intro obs ho
  obtain ⟨e, he⟩ := reachable_obs_present c h obs ho
  exact ⟨e, he, get_packet_field c ts max_age obs e he⟩

/-- Witness for C7_snapshot_complete: the cache constructed from an empty
record, queried for outTemp. -/
theorem C7_snapshot_complete_witness :
    ∃ e, lookupA (CachedPacket.init ⟨[], none, none⟩ 0).cache "outTemp" = some e ∧
      lookupA (((CachedPacket.init ⟨[], none, none⟩ 0).get_packet 100 600).fields) "outTemp"
        = some (if 100 - e.ts ≤ 600 then e.value else none) :=
  C7_snapshot_complete (CachedPacket.init ⟨[], none, none⟩ 0)
    (CachedPacket.Reachable.init ⟨[], none, none⟩ 0) 100 600 "outTemp" (by decide)

/-- C8: calc_trend returns unknown (None) when the current value is
unknown, when the historical lookup finds no record, or when the
observation is absent from the found record; and when the observation is
present with a non-null value it returns current − historical with the
historical value converted into the current value's unit. -/
theorem C8_calc_trend_cases (obs : String) (convU : ℚ → ℚ)
    (getRecord : ℤ → ℤ → Option (List (String × Option ℚ)))
    (then_ts grace : ℤ) :
    (calc_trend obs none convU getRecord then_ts grace = none) ∧
    (∀ now : ℚ, getRecord then_ts grace = none →
      calc_trend obs (some now) convU getRecord then_ts grace = none) ∧
    (∀ (now : ℚ) (rec0 : List (String × Option ℚ)),
      getRecord then_ts grace = some rec0 → lookupA rec0 obs = none →
      calc_trend obs (some now) convU getRecord then_ts grace = none) ∧
    (∀ (now h : ℚ) (rec0 : List (String × Option ℚ)),
      getRecord then_ts grace = some rec0 → lookupA rec0 obs = some (some h) →
      calc_trend obs (some now) convU getRecord then_ts grace
        = some (now - convU h)) := by
  refine ⟨rfl, ?_, ?_, ?_⟩
  · intro now hg
    simp [calc_trend, hg]
  · intro now rec0 hg hl
    simp [calc_trend, hg, hl]
  · intro now h rec0 hg hl
    simp [calc_trend, hg, hl]

/-- Witness for C8_calc_trend_cases: the spec's end-to-end scenario —
current 20.0 against a record carrying outTemp 18.0 gives +2.0; a lookup
miss gives unknown. -/
theorem C8_calc_trend_cases_witness :
    calc_trend "outTemp" (some 20) (fun x => x)
      (fun _ _ => some [("outTemp", some 18)]) 0 0 = some 2 ∧
    calc_trend "outTemp" (some 20) (fun x => x) (fun _ _ => none) 0 0 = none := by
  constructor
  · have h := (C8_calc_trend_cases "outTemp" (fun x => x)
      (fun _ _ => some [("outTemp", some 18)]) 0 0).2.2.2 20 18
      [("outTemp", some 18)] rfl (by decide)
    norm_num at h
    exact h
  · exact (C8_calc_trend_cases "outTemp" (fun x => x)
      (fun _ _ => none) 0 0).2.1 20 rfl

end RTCR
